import Mathlib

/-
  Verification of micro-flag.h (header-only C99 command line argument parser).

  The embedding below is a shallow model of src/micro-flag.h:
  - C strings are Lean `String`; a possibly-NULL `char*` is `Option String`.
  - Destination cells (`void *value`) are addresses `Nat` into a memory
    `Mem : Nat -> MicroValue`; a write through a typed pointer stores the
    corresponding `MicroValue` constructor.
  - `double` values are modelled as exact rationals (`Rat`); the model of
    `strtod` is partial (decimal grammar only, no ERANGE range failure, no
    hexadecimal/inf/nan forms, no binary rounding — see the doc comment of
    `strtodQ`), so no theorem is settled on a stored Double value, and the
    parse-correctness theorem is restricted to Double-free flag tables.
  - `printf` diagnostics are modelled as a list of emitted lines.
  - The enum `MicroFlagType` is modelled as `Nat` exactly like the C enum,
    so that out-of-enum type tags (which hit the `default:` branch of the
    switch) are representable.
  - The parser state additionally carries a ghost list `triggered` of the
    flag descriptors whose name comparison succeeded, in match order; it is
    written exactly at the points where the C code sets `found = true`.
-/

namespace MicroFlagLib

/-- A value stored in a destination cell. `undef` is the content of a cell
the program has not written. -/
inductive MicroValue where
  | vBool (b : Bool)
  | vChar (c : Char)
  | vStr (s : String)
  | vInt (n : Int)
  | vDouble (q : Rat)
  | undef
deriving DecidableEq

/-- Caller-owned memory: destination cells indexed by address. -/
def Mem : Type := Nat → MicroValue

/-- Write value `v` to address `a`. -/
def Mem.write (m : Mem) (a : Nat) (v : MicroValue) : Mem :=
  fun x => if x = a then v else m x

/-- The all-undefined initial memory. -/
def memUndef : Mem := fun _ => MicroValue.undef

/-- The C enum `MicroFlagError` of micro-flag.h (MICRO_FLAG_OK is a member). -/
inductive MicroFlagError where
  | OK
  | UNKNOWN_TYPE
  | MISSING_CHAR
  | MISSING_STR
  | MISSING_INT
  | MISSING_DOUBLE
  | CHAR_WRONG_ARG
  | UNKNOWN_FLAG
  | NOT_AN_INT
  | NOT_A_DOUBLE
deriving DecidableEq

/-- C enum value MICRO_FLAG_BOOL. -/
def MICRO_FLAG_BOOL : Nat := 0
/-- C enum value MICRO_FLAG_CHAR. -/
def MICRO_FLAG_CHAR : Nat := 1
/-- C enum value MICRO_FLAG_STR. -/
def MICRO_FLAG_STR : Nat := 2
/-- C enum value MICRO_FLAG_INT. -/
def MICRO_FLAG_INT : Nat := 3
/-- C enum value MICRO_FLAG_DOUBLE. -/
def MICRO_FLAG_DOUBLE : Nat := 4

/-- The `MicroFlag` descriptor struct. `type` is the raw enum value as a
`Nat` (out-of-enum tags are representable, as in C); `value` is the address
of the destination cell. -/
structure MicroFlag where
  type : Nat
  value : Nat
  short_name : Option String
  long_name : Option String
  description : String
deriving DecidableEq

/-- `flags[flag].short_name && strcmp(flags[flag].short_name, argv[i]) == 0`:
a possibly-NULL name matches a token iff it is non-NULL and equal to it. -/
def nameMatch (n : Option String) (tok : String) : Bool :=
  match n with
  | none => false
  | some s => s == tok

/-- The match condition of the inner scan: short name or long name equals
the token. -/
def flagMatch (f : MicroFlag) (tok : String) : Bool :=
  nameMatch f.short_name tok || nameMatch f.long_name tok

/-- C `strlen`, i.e. the byte length of the token. -/
def strlen (s : String) : Nat := s.utf8ByteSize

/-- Rendering of a possibly-NULL string by `printf %s` (glibc prints
`(null)` for a NULL argument). -/
def cFmtStr (n : Option String) : String :=
  match n with
  | some s => s
  | none => "(null)"

/-- The diagnostic line `printf("Usage: %s,%s <...>\n", short, long)`. -/
def usageLine (f : MicroFlag) (ph : String) : String :=
  "Usage: " ++ cFmtStr f.short_name ++ "," ++ cFmtStr f.long_name ++ " " ++ ph

/-- The diagnostic line for an unrecognized token. -/
def unknownLine (tok : String) : String :=
  "Error parsing flags: unknown flag \"" ++ tok ++ "\""

/-- Space characters skipped by `strtol` and `strtod` (C `isspace`, default
locale). -/
def isSpaceC (c : Char) : Bool :=
  c = ' ' || c = '\t' || c = '\n' || c = '\r' || c = Char.ofNat 11 || c = Char.ofNat 12

/-- Drop leading space characters. -/
def dropSpaces : List Char → List Char
  | [] => []
  | c :: cs => if isSpaceC c then dropSpaces cs else c :: cs

/-- Read a run of leading decimal digits; `none` when no digit is consumed
(the `endptr == nptr` outcome of `strtol`). -/
def digitsRun (acc : Nat) (seen : Bool) : List Char → Option Nat
  | [] => if seen then some acc else none
  | c :: cs =>
      if c.isDigit then digitsRun (acc * 10 + (c.toNat - 48)) true cs
      else if seen then some acc else none

/-- Model of `strtol(s, &endptr, 10)`: skip spaces, optional sign, decimal
digits; `none` exactly when no digits are consumed (`endptr == s`). The
returned integer is the exact (unbounded) value of the digit run; the
clamping of `strtol` to the `long` range together with the ERANGE check of
the caller is equivalent to an out-of-`int`-range check on the exact value,
which the caller performs. Trailing non-digit characters are ignored. -/
def strtol10 (s : String) : Option Int :=
  match dropSpaces s.data with
  | '-' :: r => (digitsRun 0 false r).map (fun n => -(n : Int))
  | '+' :: r => (digitsRun 0 false r).map (fun n => (n : Int))
  | t => (digitsRun 0 false t).map (fun n => (n : Int))

/-- Read a run of leading decimal digits, returning value, digit count and
the remaining characters. -/
def digitsCnt (acc cnt : Nat) : List Char → Nat × Nat × List Char
  | [] => (acc, cnt, [])
  | c :: cs =>
      if c.isDigit then digitsCnt (acc * 10 + (c.toNat - 48)) (cnt + 1) cs
      else (acc, cnt, c :: cs)

/-- Integer power of ten as a rational, for decimal exponents. -/
def pow10 (e : Int) : Rat :=
  if 0 ≤ e then ((10 : Rat) ^ e.toNat) else 1 / ((10 : Rat) ^ (-e).toNat)

/-- Exponent part of a decimal float literal: optional sign and digits. An
exponent with no digits does not belong to the number (`strtod` backtracks)
and contributes factor 1. -/
def expVal (cs : List Char) : Int :=
  match cs with
  | '-' :: r =>
      match digitsRun 0 false r with
      | some n => -(n : Int)
      | none => 0
  | '+' :: r =>
      match digitsRun 0 false r with
      | some n => (n : Int)
      | none => 0
  | t =>
      match digitsRun 0 false t with
      | some n => (n : Int)
      | none => 0

/-- PARTIAL model of `strtod(s, &endptr)`, covering only the decimal
grammar: skip spaces, optional sign, digits with optional fraction,
optional exponent; `none` when no digit occurs in the decimal mantissa;
trailing garbage after the literal is ignored; otherwise the exact
rational value of the decimal literal. Not modelled, and diverging from
the C `strtod` of micro-flag.h line 284: the `errno == ERANGE` range
failure (C fails on `1e400`, this model succeeds), the C99
hexadecimal/infinity/nan forms (C reads `0x8` as 8.0, this model as 0),
and the rounding of the exact decimal value to a binary double. These are
binary floating-point behaviors outside this exact embedding, so no
theorem below is settled on a stored Double value or on the Double error
condition: the parse-correctness theorem for C2 is restricted to tables
declaring no Double flag, and the remaining theorems that quantify over
Double flags state properties (token bookkeeping, frame conditions,
one-diagnostic-per-error) that hold for any converter. -/
def strtodQ (s : String) : Option Rat :=
  let t0 := dropSpaces s.data
  let sgn : Rat × List Char :=
    match t0 with
    | '-' :: r => (-1, r)
    | '+' :: r => (1, r)
    | t => (1, t)
  let ip := digitsCnt 0 0 sgn.2
  let fp :=
    match ip.2.2 with
    | '.' :: r => digitsCnt 0 0 r
    | t => (0, 0, t)
  if ip.2.1 + fp.2.1 = 0 then none
  else
    let mant : Rat := (ip.1 : Rat) + (fp.1 : Rat) / ((10 : Rat) ^ fp.2.1)
    let e : Int :=
      match fp.2.2 with
      | 'e' :: r => expVal r
      | 'E' :: r => expVal r
      | _ => 0
    some (sgn.1 * mant * pow10 e)

/-- C `INT_MAX` (32-bit int, per spec section 3). -/
def INT_MAX : Int := 2147483647
/-- C `INT_MIN` (32-bit int, per spec section 3). -/
def INT_MIN : Int := -2147483648

/-- The mutable state of `micro_flag_parse`: caller memory, the lines
printed so far, and the ghost list of matched flag descriptors (appended
exactly where the C code sets `found = true`). -/
structure ParseState where
  mem : Mem
  out : List String
  triggered : List MicroFlag

/-- Outcome of the inner scan over the flag table for one outer iteration:
either an early error return, or the final cursor (current token, remaining
tokens), state and `found` flag. -/
inductive ScanStep where
  | err (s : ParseState) (e : MicroFlagError)
  | next (tok : String) (rest : List String) (s : ParseState) (found : Bool)

/-- State component of a `ScanStep`. -/
def ScanStep.state : ScanStep → ParseState
  | .err s _ => s
  | .next _ _ s _ => s

/-- The `switch (flags[flag].type)` body of `micro_flag_parse`, executed
when flag `f` has matched the current token `tok` (after `found = true`).
On a value-consuming kind, `i++` moves the cursor onto the value token, so
`ScanStep.next` reports the value token as the new current token. -/
def dispatchFlag (f : MicroFlag) (tok : String) (rest : List String) (s : ParseState) : ScanStep :=
  if f.type = MICRO_FLAG_BOOL then
    ScanStep.next tok rest
      { s with mem := s.mem.write f.value (MicroValue.vBool true) } true
  else if f.type = MICRO_FLAG_CHAR then
    match rest with
    | [] =>
        ScanStep.err { s with out := s.out ++ [usageLine f "<char>"] }
          MicroFlagError.MISSING_CHAR
    | v :: rest' =>
        if strlen v = 1 then
          ScanStep.next v rest'
            { s with mem := s.mem.write f.value (MicroValue.vChar v.front) } true
        else
          ScanStep.err { s with out := s.out ++ [usageLine f "<char>"] }
            MicroFlagError.CHAR_WRONG_ARG
  else if f.type = MICRO_FLAG_STR then
    match rest with
    | [] =>
        ScanStep.err { s with out := s.out ++ [usageLine f "<string>"] }
          MicroFlagError.MISSING_STR
    | v :: rest' =>
        ScanStep.next v rest'
          { s with mem := s.mem.write f.value (MicroValue.vStr v) } true
  else if f.type = MICRO_FLAG_INT then
    match rest with
    | [] =>
        ScanStep.err { s with out := s.out ++ [usageLine f "<integer>"] }
          MicroFlagError.MISSING_INT
    | v :: rest' =>
        match strtol10 v with
        | none =>
            ScanStep.err { s with out := s.out ++ [usageLine f "<integer>"] }
              MicroFlagError.NOT_AN_INT
        | some n =>
            if INT_MAX < n ∨ n < INT_MIN then
              ScanStep.err { s with out := s.out ++ [usageLine f "<integer>"] }
                MicroFlagError.NOT_AN_INT
            else
              ScanStep.next v rest'
                { s with mem := s.mem.write f.value (MicroValue.vInt n) } true
  else if f.type = MICRO_FLAG_DOUBLE then
    match rest with
    | [] =>
        ScanStep.err { s with out := s.out ++ [usageLine f "<double>"] }
          MicroFlagError.MISSING_DOUBLE
    | v :: rest' =>
        match strtodQ v with
        | none =>
            ScanStep.err { s with out := s.out ++ [usageLine f "<double>"] }
              MicroFlagError.NOT_A_DOUBLE
        | some q =>
            ScanStep.next v rest'
              { s with mem := s.mem.write f.value (MicroValue.vDouble q) } true
  else
    ScanStep.err s MicroFlagError.UNKNOWN_TYPE

/-- The inner `for (flag = 0; flag < num_flags; ++flag)` loop of
`micro_flag_parse`, for one outer iteration. `tok` is `argv[i]`, `rest` the
tokens after it. On a match the ghost `triggered` list records the
descriptor (the point where the C code sets `found = true`) and the switch
body runs; when it consumed a value token (`i++`), the remaining
declarations are compared against that value token, exactly as in C. -/
def scanInner : List MicroFlag → String → List String → ParseState → Bool → ScanStep
  | [], tok, rest, s, found => ScanStep.next tok rest s found
  | f :: fs, tok, rest, s, found =>
    if flagMatch f tok then
      match dispatchFlag f tok rest { s with triggered := s.triggered ++ [f] } with
      | ScanStep.err s' e => ScanStep.err s' e
      | ScanStep.next tok' rest' s' _ => scanInner fs tok' rest' s' true
    else scanInner fs tok rest s found

/-- The outer `for (i = 1; i < argc; ++i)` loop. The `fuel` parameter makes
the recursion structural; `micro_flag_parse` supplies `fuel = argc`, which
always exceeds the number of remaining tokens, so the fuel-exhaustion
branch is unreachable (each step shortens the token list). -/
def scanOuter (flags : List MicroFlag) : Nat → List String → ParseState → ParseState × MicroFlagError
  | _, [], s => (s, MicroFlagError.OK)
  | 0, _ :: _, s => (s, MicroFlagError.OK)
  | fuel + 1, tok :: rest, s =>
    match scanInner flags tok rest s false with
    | ScanStep.err s' e => (s', e)
    | ScanStep.next _ rest' s' found =>
      if found then scanOuter flags fuel rest' s'
      else ({ s' with out := s'.out ++ [unknownLine tok] }, MicroFlagError.UNKNOWN_FLAG)

/-- `micro_flag_parse(flags, num_flags, argc, argv)`: scan `argv[1..]`
against the flag table, starting from caller memory `m` with nothing
printed. Returns the final state and the `MicroFlagError` result. -/
def micro_flag_parse (flags : List MicroFlag) (argv : List String) (m : Mem) :
    ParseState × MicroFlagError :=
  scanOuter flags argv.length (argv.drop 1) { mem := m, out := [], triggered := [] }

/-- The global table `micro_flag_type_str`. -/
def micro_flag_type_str : List String := ["", "<char>", "<str>", "<int>", "<double>"]

/-- The two lines printed for one flag by the help loop
(`printf("    %s%s%s %s\n        %s\n", ...)`). Indexing
`micro_flag_type_str[flags[i].type]` is modelled with default `""`;
in C an out-of-enum tag is an out-of-bounds read (undefined behavior). -/
def helpBlock (f : MicroFlag) : List String :=
  ["    " ++ (match f.short_name with | some s => s | none => "") ++
     (if f.long_name.isSome && f.short_name.isSome then "," else "") ++
     (match f.long_name with | some s => s | none => "") ++ " " ++
     micro_flag_type_str.getD f.type "",
   "        " ++ f.description]

/-- The help loop over the flag table, in table order. -/
def helpBlocks : List MicroFlag → List String
  | [] => []
  | f :: fs => helpBlock f ++ helpBlocks fs

/-- `micro_flag_print_help(prog_name, description, flags, num_flags)`:
the emitted lines and the returned error code. -/
def micro_flag_print_help (prog_name descr : String) (flags : List MicroFlag) :
    List String × MicroFlagError :=
  ([prog_name, descr, "", "Options:"] ++ helpBlocks flags, MicroFlagError.OK)

/-- Successful conversion of a value token for a value-taking kind: the
checks and the stored value of the corresponding switch branch (Char:
length exactly one; Int: digits consumed and within `int` bounds; String:
verbatim; Double: decimal parse succeeds). `none` for kind Bool and for
out-of-enum kinds. -/
def convOf (ty : Nat) (v : String) : Option MicroValue :=
  if ty = MICRO_FLAG_CHAR then
    if strlen v = 1 then some (MicroValue.vChar v.front) else none
  else if ty = MICRO_FLAG_STR then some (MicroValue.vStr v)
  else if ty = MICRO_FLAG_INT then
    match strtol10 v with
    | none => none
    | some n => if INT_MAX < n ∨ n < INT_MIN then none else some (MicroValue.vInt n)
  else if ty = MICRO_FLAG_DOUBLE then (strtodQ v).map MicroValue.vDouble
  else none

/-- Specification-side reference semantics of the parse algorithm, read off
the words of spec sections 4.1 and 8: scan tokens left to right; the first
declared flag whose short or long name equals the token handles it; Bool
writes `true`, every other kind requires a following syntactically valid
value token, converts it and consumes it. `none` when a token is
unrecognized or a value is missing or invalid. On success returns the final
memory together with the list of tokens that were consumed as values. -/
def specParse (flags : List MicroFlag) : List String → Mem → Option (Mem × List String)
  | [], m => some (m, [])
  | tok :: rest, m =>
    match flags.find? (fun f => flagMatch f tok) with
    | none => none
    | some f =>
      if f.type = MICRO_FLAG_BOOL then
        specParse flags rest (m.write f.value (MicroValue.vBool true))
      else
        match rest with
        | [] => none
        | v :: rest' =>
          match convOf f.type v with
          | none => none
          | some w =>
              (specParse flags rest' (m.write f.value w)).map (fun p => (p.1, v :: p.2))

/-- The expected-value placeholder printed in the usage line before each
value-arity or conversion error, matching the printf literal of the
corresponding switch branch of `micro_flag_parse` (`<char>`, `<string>`,
`<integer>`, `<double>`). -/
def errPlaceholder : MicroFlagError → String
  | MicroFlagError.MISSING_CHAR => "<char>"
  | MicroFlagError.CHAR_WRONG_ARG => "<char>"
  | MicroFlagError.MISSING_STR => "<string>"
  | MicroFlagError.MISSING_INT => "<integer>"
  | MicroFlagError.NOT_AN_INT => "<integer>"
  | MicroFlagError.MISSING_DOUBLE => "<double>"
  | MicroFlagError.NOT_A_DOUBLE => "<double>"
  | _ => ""

/-- Specification-side placeholder per kind (spec section 4.2). -/
def kindPlaceholder : Nat → String
  | 0 => ""
  | 1 => "<char>"
  | 2 => "<str>"
  | 3 => "<int>"
  | 4 => "<double>"
  | _ => ""

/-- Specification-side two-line option block (spec section 4.2): short
name, a comma exactly when both names are present, long name, the
placeholder of the kind; then the indented description. -/
def specBlock (f : MicroFlag) : List String :=
  ["    " ++ (match f.short_name with | some s => s | none => "") ++
     (if f.short_name.isSome ∧ f.long_name.isSome then "," else "") ++
     (match f.long_name with | some s => s | none => "") ++ " " ++
     kindPlaceholder f.type,
   "        " ++ f.description]

/-- Specification-side help text (spec section 4.2). -/
def specHelp (prog_name descr : String) (flags : List MicroFlag) : List String :=
  [prog_name, descr, "", "Options:"] ++ (flags.map specBlock).flatten

/-- Number of value tokens consumed by a run of successful matches: one per
matched flag of value-taking kind. -/
def numConsumed (new : List MicroFlag) : Nat :=
  (new.filter (fun g => g.type != MICRO_FLAG_BOOL)).length

/-- Dispatch on a Bool flag writes `true` and keeps the cursor. -/
lemma dispatchFlag_bool (f : MicroFlag) (tok : String) (rest : List String) (s : ParseState)
    (h : f.type = MICRO_FLAG_BOOL) :
    dispatchFlag f tok rest s =
      ScanStep.next tok rest { s with mem := s.mem.write f.value (MicroValue.vBool true) } true := by
  simp [dispatchFlag, h]

/-- Dispatch on a Char flag with no following token. -/
lemma dispatchFlag_char_missing (f : MicroFlag) (tok : String) (s : ParseState)
    (h : f.type = MICRO_FLAG_CHAR) :
    dispatchFlag f tok [] s =
      ScanStep.err { s with out := s.out ++ [usageLine f "<char>"] } MicroFlagError.MISSING_CHAR := by
  simp [dispatchFlag, h, MICRO_FLAG_BOOL, MICRO_FLAG_CHAR]

/-- Dispatch on a Char flag with a single-byte value token. -/
lemma dispatchFlag_char_ok (f : MicroFlag) (tok v : String) (rest : List String) (s : ParseState)
    (h : f.type = MICRO_FLAG_CHAR) (hl : strlen v = 1) :
    dispatchFlag f tok (v :: rest) s =
      ScanStep.next v rest { s with mem := s.mem.write f.value (MicroValue.vChar v.front) } true := by
  simp [dispatchFlag, h, MICRO_FLAG_BOOL, MICRO_FLAG_CHAR, hl]

/-- Dispatch on a Char flag with a value token that is not one byte long. -/
lemma dispatchFlag_char_bad (f : MicroFlag) (tok v : String) (rest : List String) (s : ParseState)
    (h : f.type = MICRO_FLAG_CHAR) (hl : ¬ strlen v = 1) :
    dispatchFlag f tok (v :: rest) s =
      ScanStep.err { s with out := s.out ++ [usageLine f "<char>"] } MicroFlagError.CHAR_WRONG_ARG := by
  simp [dispatchFlag, h, MICRO_FLAG_BOOL, MICRO_FLAG_CHAR, hl]

/-- Dispatch on a String flag with no following token. -/
lemma dispatchFlag_str_missing (f : MicroFlag) (tok : String) (s : ParseState)
    (h : f.type = MICRO_FLAG_STR) :
    dispatchFlag f tok [] s =
      ScanStep.err { s with out := s.out ++ [usageLine f "<string>"] } MicroFlagError.MISSING_STR := by
  simp [dispatchFlag, h, MICRO_FLAG_BOOL, MICRO_FLAG_CHAR, MICRO_FLAG_STR]

/-- Dispatch on a String flag with a value token stores it verbatim. -/
lemma dispatchFlag_str_ok (f : MicroFlag) (tok v : String) (rest : List String) (s : ParseState)
    (h : f.type = MICRO_FLAG_STR) :
    dispatchFlag f tok (v :: rest) s =
      ScanStep.next v rest { s with mem := s.mem.write f.value (MicroValue.vStr v) } true := by
  simp [dispatchFlag, h, MICRO_FLAG_BOOL, MICRO_FLAG_CHAR, MICRO_FLAG_STR]

/-- Dispatch on an Int flag with no following token. -/
lemma dispatchFlag_int_missing (f : MicroFlag) (tok : String) (s : ParseState)
    (h : f.type = MICRO_FLAG_INT) :
    dispatchFlag f tok [] s =
      ScanStep.err { s with out := s.out ++ [usageLine f "<integer>"] } MicroFlagError.MISSING_INT := by
  simp [dispatchFlag, h, MICRO_FLAG_BOOL, MICRO_FLAG_CHAR, MICRO_FLAG_STR, MICRO_FLAG_INT]

/-- Dispatch on an Int flag whose value token consumes no digits. -/
lemma dispatchFlag_int_none (f : MicroFlag) (tok v : String) (rest : List String) (s : ParseState)
    (h : f.type = MICRO_FLAG_INT) (hn : strtol10 v = none) :
    dispatchFlag f tok (v :: rest) s =
      ScanStep.err { s with out := s.out ++ [usageLine f "<integer>"] } MicroFlagError.NOT_AN_INT := by
  simp [dispatchFlag, h, MICRO_FLAG_BOOL, MICRO_FLAG_CHAR, MICRO_FLAG_STR, MICRO_FLAG_INT, hn]

/-- Dispatch on an Int flag whose value token parses but exceeds the `int`
bounds. -/
lemma dispatchFlag_int_range (f : MicroFlag) (tok v : String) (rest : List String) (s : ParseState)
    (n : Int) (h : f.type = MICRO_FLAG_INT) (hn : strtol10 v = some n)
    (hr : INT_MAX < n ∨ n < INT_MIN) :
    dispatchFlag f tok (v :: rest) s =
      ScanStep.err { s with out := s.out ++ [usageLine f "<integer>"] } MicroFlagError.NOT_AN_INT := by
  simp [dispatchFlag, h, MICRO_FLAG_BOOL, MICRO_FLAG_CHAR, MICRO_FLAG_STR, MICRO_FLAG_INT, hn, hr]

/-- Dispatch on an Int flag with an in-range integer value token. -/
lemma dispatchFlag_int_ok (f : MicroFlag) (tok v : String) (rest : List String) (s : ParseState)
    (n : Int) (h : f.type = MICRO_FLAG_INT) (hn : strtol10 v = some n)
    (hr : ¬ (INT_MAX < n ∨ n < INT_MIN)) :
    dispatchFlag f tok (v :: rest) s =
      ScanStep.next v rest { s with mem := s.mem.write f.value (MicroValue.vInt n) } true := by
  simp [dispatchFlag, h, MICRO_FLAG_BOOL, MICRO_FLAG_CHAR, MICRO_FLAG_STR, MICRO_FLAG_INT, hn, hr]

/-- Dispatch on a Double flag with no following token. -/
lemma dispatchFlag_dbl_missing (f : MicroFlag) (tok : String) (s : ParseState)
    (h : f.type = MICRO_FLAG_DOUBLE) :
    dispatchFlag f tok [] s =
      ScanStep.err { s with out := s.out ++ [usageLine f "<double>"] } MicroFlagError.MISSING_DOUBLE := by
  simp [dispatchFlag, h, MICRO_FLAG_BOOL, MICRO_FLAG_CHAR, MICRO_FLAG_STR, MICRO_FLAG_INT,
    MICRO_FLAG_DOUBLE]

/-- Dispatch on a Double flag whose value token has no parsable number. -/
lemma dispatchFlag_dbl_none (f : MicroFlag) (tok v : String) (rest : List String) (s : ParseState)
    (h : f.type = MICRO_FLAG_DOUBLE) (hq : strtodQ v = none) :
    dispatchFlag f tok (v :: rest) s =
      ScanStep.err { s with out := s.out ++ [usageLine f "<double>"] } MicroFlagError.NOT_A_DOUBLE := by
  simp [dispatchFlag, h, MICRO_FLAG_BOOL, MICRO_FLAG_CHAR, MICRO_FLAG_STR, MICRO_FLAG_INT,
    MICRO_FLAG_DOUBLE, hq]

/-- Dispatch on a Double flag with a parsable value token. -/
lemma dispatchFlag_dbl_ok (f : MicroFlag) (tok v : String) (rest : List String) (s : ParseState)
    (q : Rat) (h : f.type = MICRO_FLAG_DOUBLE) (hq : strtodQ v = some q) :
    dispatchFlag f tok (v :: rest) s =
      ScanStep.next v rest { s with mem := s.mem.write f.value (MicroValue.vDouble q) } true := by
  simp [dispatchFlag, h, MICRO_FLAG_BOOL, MICRO_FLAG_CHAR, MICRO_FLAG_STR, MICRO_FLAG_INT,
    MICRO_FLAG_DOUBLE, hq]

/-- Dispatch on an out-of-enum kind hits the defensive `default:` branch:
no diagnostic line, no write. -/
lemma dispatchFlag_unknown (f : MicroFlag) (tok : String) (rest : List String) (s : ParseState)
    (h0 : ¬ f.type = MICRO_FLAG_BOOL) (h1 : ¬ f.type = MICRO_FLAG_CHAR)
    (h2 : ¬ f.type = MICRO_FLAG_STR) (h3 : ¬ f.type = MICRO_FLAG_INT)
    (h4 : ¬ f.type = MICRO_FLAG_DOUBLE) :
    dispatchFlag f tok rest s = ScanStep.err s MicroFlagError.UNKNOWN_TYPE := by
  simp [dispatchFlag, h0, h1, h2, h3, h4]

/-- Dispatch on a value-taking flag with a convertible value token writes
the converted value and moves the cursor onto the value token. -/
lemma dispatchFlag_val (f : MicroFlag) (tok v : String) (rest : List String) (s : ParseState)
    (w : MicroValue) (_h0 : ¬ f.type = MICRO_FLAG_BOOL) (hc : convOf f.type v = some w) :
    dispatchFlag f tok (v :: rest) s =
      ScanStep.next v rest { s with mem := s.mem.write f.value w } true := by
  by_cases h1 : f.type = MICRO_FLAG_CHAR
  · by_cases hl : strlen v = 1
    · simp [convOf, h1, hl, MICRO_FLAG_CHAR] at hc
      rw [dispatchFlag_char_ok f tok v rest s h1 hl, ← hc]
    · simp [convOf, h1, hl, MICRO_FLAG_CHAR] at hc
  · by_cases h2 : f.type = MICRO_FLAG_STR
    · simp [convOf, h1, h2, MICRO_FLAG_CHAR, MICRO_FLAG_STR] at hc
      rw [dispatchFlag_str_ok f tok v rest s h2, ← hc]
    · by_cases h3 : f.type = MICRO_FLAG_INT
      · simp [convOf, h1, h2, h3, MICRO_FLAG_CHAR, MICRO_FLAG_STR, MICRO_FLAG_INT] at hc
        cases hn : strtol10 v with
        | none => simp [hn] at hc
        | some n =>
          by_cases hr : INT_MAX < n ∨ n < INT_MIN
          · simp [hn, hr] at hc
          · simp [hn, hr] at hc
            rw [dispatchFlag_int_ok f tok v rest s n h3 hn hr, ← hc]
      · by_cases h4 : f.type = MICRO_FLAG_DOUBLE
        · simp [convOf, h1, h2, h3, h4, MICRO_FLAG_CHAR, MICRO_FLAG_STR, MICRO_FLAG_INT,
            MICRO_FLAG_DOUBLE] at hc
          cases hq : strtodQ v with
          | none => simp [hq] at hc
          | some q =>
            simp [hq] at hc
            rw [dispatchFlag_dbl_ok f tok v rest s q h4 hq, ← hc]
        · simp only [MICRO_FLAG_CHAR, MICRO_FLAG_STR, MICRO_FLAG_INT, MICRO_FLAG_DOUBLE]
            at h1 h2 h3 h4
          simp [convOf, h1, h2, h3, h4, MICRO_FLAG_CHAR, MICRO_FLAG_STR, MICRO_FLAG_INT,
            MICRO_FLAG_DOUBLE] at hc

/-- Inversion of a successful dispatch: it prints nothing, touches no ghost
state, performs exactly one write to the destination of the flag, and
either the kind is Bool and the cursor is unchanged, or the kind takes a
value and the cursor moved onto the consumed value token, which converted
successfully. -/
lemma dispatchFlag_next_inv (f : MicroFlag) (tok t : String) (rest r : List String)
    (s s' : ParseState) (fd : Bool)
    (h : dispatchFlag f tok rest s = ScanStep.next t r s' fd) :
    s'.out = s.out ∧ s'.triggered = s.triggered ∧
    ∃ w, s'.mem = s.mem.write f.value w ∧
      ((f.type = MICRO_FLAG_BOOL ∧ t = tok ∧ r = rest ∧ w = MicroValue.vBool true) ∨
       (¬ f.type = MICRO_FLAG_BOOL ∧ rest = t :: r ∧ convOf f.type t = some w)) := by
  by_cases h0 : f.type = MICRO_FLAG_BOOL
  · rw [dispatchFlag_bool f tok rest s h0] at h
    injection h with ht hr2 hs2 hf2
    subst ht; subst hr2; subst hs2
    exact ⟨rfl, rfl, MicroValue.vBool true, rfl, Or.inl ⟨h0, rfl, rfl, rfl⟩⟩
  · by_cases h1 : f.type = MICRO_FLAG_CHAR
    · cases rest with
      | nil => rw [dispatchFlag_char_missing f tok s h1] at h; cases h
      | cons v rest' =>
        by_cases hl : strlen v = 1
        · rw [dispatchFlag_char_ok f tok v rest' s h1 hl] at h
          injection h with ht hr2 hs2 hf2
          subst ht; subst hr2; subst hs2
          exact ⟨rfl, rfl, MicroValue.vChar v.front, rfl,
            Or.inr ⟨h0, rfl, by simp [convOf, h1, MICRO_FLAG_CHAR, hl]⟩⟩
        · rw [dispatchFlag_char_bad f tok v rest' s h1 hl] at h; cases h
    · by_cases h2 : f.type = MICRO_FLAG_STR
      · cases rest with
        | nil => rw [dispatchFlag_str_missing f tok s h2] at h; cases h
        | cons v rest' =>
          rw [dispatchFlag_str_ok f tok v rest' s h2] at h
          injection h with ht hr2 hs2 hf2
          subst ht; subst hr2; subst hs2
          exact ⟨rfl, rfl, MicroValue.vStr v, rfl,
            Or.inr ⟨h0, rfl, by simp [convOf, h2, MICRO_FLAG_CHAR, MICRO_FLAG_STR]⟩⟩
      · by_cases h3 : f.type = MICRO_FLAG_INT
        · cases rest with
          | nil => rw [dispatchFlag_int_missing f tok s h3] at h; cases h
          | cons v rest' =>
            cases hn : strtol10 v with
            | none => rw [dispatchFlag_int_none f tok v rest' s h3 hn] at h; cases h
            | some n =>
              by_cases hr : INT_MAX < n ∨ n < INT_MIN
              · rw [dispatchFlag_int_range f tok v rest' s n h3 hn hr] at h; cases h
              · rw [dispatchFlag_int_ok f tok v rest' s n h3 hn hr] at h
                injection h with ht hr2 hs2 hf2
                subst ht; subst hr2; subst hs2
                exact ⟨rfl, rfl, MicroValue.vInt n, rfl,
                  Or.inr ⟨h0, rfl, by simp [convOf, h3, MICRO_FLAG_CHAR, MICRO_FLAG_STR,
                    MICRO_FLAG_INT, hn, hr]⟩⟩
        · by_cases h4 : f.type = MICRO_FLAG_DOUBLE
          · cases rest with
            | nil => rw [dispatchFlag_dbl_missing f tok s h4] at h; cases h
            | cons v rest' =>
              cases hq : strtodQ v with
              | none => rw [dispatchFlag_dbl_none f tok v rest' s h4 hq] at h; cases h
              | some q =>
                rw [dispatchFlag_dbl_ok f tok v rest' s q h4 hq] at h
                injection h with ht hr2 hs2 hf2
                subst ht; subst hr2; subst hs2
                exact ⟨rfl, rfl, MicroValue.vDouble q, rfl,
                  Or.inr ⟨h0, rfl, by simp [convOf, h4, MICRO_FLAG_CHAR, MICRO_FLAG_STR,
                    MICRO_FLAG_INT, MICRO_FLAG_DOUBLE, hq]⟩⟩
          · rw [dispatchFlag_unknown f tok rest s h0 h1 h2 h3 h4] at h; cases h

/-- Inversion of a failing dispatch: memory and ghost state are untouched,
the error is neither `OK` nor the unknown-flag error, and either it is the
unknown-type defensive error, which prints nothing, or exactly one usage
line naming this flag with the expected value shape of the error was
printed. -/
lemma dispatchFlag_err_inv (f : MicroFlag) (tok : String) (rest : List String)
    (s s' : ParseState) (e : MicroFlagError)
    (h : dispatchFlag f tok rest s = ScanStep.err s' e) :
    s'.mem = s.mem ∧ s'.triggered = s.triggered ∧ ¬ e = MicroFlagError.OK ∧
    ¬ e = MicroFlagError.UNKNOWN_FLAG ∧
    ((e = MicroFlagError.UNKNOWN_TYPE ∧ s'.out = s.out) ∨
     (¬ e = MicroFlagError.UNKNOWN_TYPE ∧
       s'.out = s.out ++ [usageLine f (errPlaceholder e)])) := by
  by_cases h0 : f.type = MICRO_FLAG_BOOL
  · rw [dispatchFlag_bool f tok rest s h0] at h
    cases h
  · by_cases h1 : f.type = MICRO_FLAG_CHAR
    · cases rest with
      | nil =>
        rw [dispatchFlag_char_missing f tok s h1] at h
        injection h with hs2 he2
        subst hs2; subst he2
        exact ⟨rfl, rfl, by simp, by simp, Or.inr ⟨by simp, rfl⟩⟩
      | cons v rest' =>
        by_cases hl : strlen v = 1
        · rw [dispatchFlag_char_ok f tok v rest' s h1 hl] at h; cases h
        · rw [dispatchFlag_char_bad f tok v rest' s h1 hl] at h
          injection h with hs2 he2
          subst hs2; subst he2
          exact ⟨rfl, rfl, by simp, by simp, Or.inr ⟨by simp, rfl⟩⟩
    · by_cases h2 : f.type = MICRO_FLAG_STR
      · cases rest with
        | nil =>
          rw [dispatchFlag_str_missing f tok s h2] at h
          injection h with hs2 he2
          subst hs2; subst he2
          exact ⟨rfl, rfl, by simp, by simp, Or.inr ⟨by simp, rfl⟩⟩
        | cons v rest' => rw [dispatchFlag_str_ok f tok v rest' s h2] at h; cases h
      · by_cases h3 : f.type = MICRO_FLAG_INT
        · cases rest with
          | nil =>
            rw [dispatchFlag_int_missing f tok s h3] at h
            injection h with hs2 he2
            subst hs2; subst he2
            exact ⟨rfl, rfl, by simp, by simp, Or.inr ⟨by simp, rfl⟩⟩
          | cons v rest' =>
            cases hn : strtol10 v with
            | none =>
              rw [dispatchFlag_int_none f tok v rest' s h3 hn] at h
              injection h with hs2 he2
              subst hs2; subst he2
              exact ⟨rfl, rfl, by simp, by simp, Or.inr ⟨by simp, rfl⟩⟩
            | some n =>
              by_cases hr : INT_MAX < n ∨ n < INT_MIN
              · rw [dispatchFlag_int_range f tok v rest' s n h3 hn hr] at h
                injection h with hs2 he2
                subst hs2; subst he2
                exact ⟨rfl, rfl, by simp, by simp, Or.inr ⟨by simp, rfl⟩⟩
              · rw [dispatchFlag_int_ok f tok v rest' s n h3 hn hr] at h; cases h
        · by_cases h4 : f.type = MICRO_FLAG_DOUBLE
          · cases rest with
            | nil =>
              rw [dispatchFlag_dbl_missing f tok s h4] at h
              injection h with hs2 he2
              subst hs2; subst he2
              exact ⟨rfl, rfl, by simp, by simp, Or.inr ⟨by simp, rfl⟩⟩
            | cons v rest' =>
              cases hq : strtodQ v with
              | none =>
                rw [dispatchFlag_dbl_none f tok v rest' s h4 hq] at h
                injection h with hs2 he2
                subst hs2; subst he2
                exact ⟨rfl, rfl, by simp, by simp, Or.inr ⟨by simp, rfl⟩⟩
              | some q => rw [dispatchFlag_dbl_ok f tok v rest' s q h4 hq] at h; cases h
          · rw [dispatchFlag_unknown f tok rest s h0 h1 h2 h3 h4] at h
            injection h with hs2 he2
            subst hs2; subst he2
            exact ⟨rfl, rfl, by simp, by simp, Or.inl ⟨rfl, rfl⟩⟩

/-- A token matched by no declaration leaves the inner scan untouched. -/
lemma scanInner_nomatch (fs : List MicroFlag) (tok : String) (rest : List String)
    (s : ParseState) (found : Bool) (h : ∀ f ∈ fs, flagMatch f tok = false) :
    scanInner fs tok rest s found = ScanStep.next tok rest s found := by
  induction fs with
  | nil => rfl
  | cons f fs ih =>
    have hf : flagMatch f tok = false := h f (List.mem_cons_self f fs)
    simp only [scanInner, hf, Bool.false_eq_true, if_false]
    exact ih (fun g hg => h g (List.mem_cons_of_mem f hg))

/-- Reading a cell just written. -/
lemma Mem.write_self (m : Mem) (a : Nat) (v : MicroValue) : m.write a v a = v := by
  simp [Mem.write]

/-- Reading a different cell after a write. -/
lemma Mem.write_ne (m : Mem) (a : Nat) (v : MicroValue) (x : Nat) (h : ¬ x = a) :
    m.write a v x = m x := by
  simp [Mem.write, h]

/-- Master inversion of a completed inner scan: the ghost list grows by the
descriptors matched in this pass, nothing is printed, the cursor advances
by exactly one token per value-taking match (dropping the consumed value
tokens from the stream), cells not owned by a matched flag are untouched,
and cells only ever written by Bool matches hold `true` once one matched. -/
lemma scanInner_next_inv :
    ∀ (fs : List MicroFlag) (tok : String) (rest : List String) (s : ParseState) (found : Bool)
      (t : String) (r : List String) (s' : ParseState) (fd : Bool),
      scanInner fs tok rest s found = ScanStep.next t r s' fd →
      ∃ new, s'.triggered = s.triggered ++ new ∧ s'.out = s.out ∧
        t :: r = List.drop (numConsumed new) (tok :: rest) ∧
        (∀ a, (∀ g ∈ new, ¬ g.value = a) → s'.mem a = s.mem a) ∧
        (∀ a, (∀ g ∈ new, g.value = a → g.type = MICRO_FLAG_BOOL) →
          ((s.mem a = MicroValue.vBool true → s'.mem a = MicroValue.vBool true) ∧
           ((∃ g ∈ new, g.value = a) → s'.mem a = MicroValue.vBool true))) := by
  intro fs
  induction fs with
  | nil =>
    intro tok rest s found t r s' fd h
    injection h with ht hr2 hs2 hf2
    subst ht; subst hr2; subst hs2
    exact ⟨[], by simp, rfl, by simp [numConsumed], fun a _ => rfl,
      fun a _ => ⟨fun hx => hx, fun hx => by simp at hx⟩⟩
  | cons f fs ih =>
    intro tok rest s found t r s' fd h
    by_cases hm : flagMatch f tok
    · simp only [scanInner, hm, if_true] at h
      cases hd : dispatchFlag f tok rest { s with triggered := s.triggered ++ [f] } with
      | err s0 e0 => rw [hd] at h; cases h
      | next t0 r0 s0 fd0 =>
        rw [hd] at h
        obtain ⟨hout0, htrig0, w, hmem0, hkind⟩ :=
          dispatchFlag_next_inv f tok t0 rest r0 { s with triggered := s.triggered ++ [f] } s0 fd0 hd
        obtain ⟨new', htrig', hout', hdrop', hframe', hstab'⟩ :=
          ih t0 r0 s0 true t r s' fd h
        refine ⟨f :: new', ?_, ?_, ?_, ?_, ?_⟩
        · rw [htrig', htrig0]
          simp
        · rw [hout', hout0]
        · rcases hkind with ⟨hb, htk, hrk, hw⟩ | ⟨hb, hrk, hcv⟩
          · subst htk; subst hrk
            have : numConsumed (f :: new') = numConsumed new' := by
              simp [numConsumed, hb]
            rw [this]
            exact hdrop'
          · subst hrk
            have : numConsumed (f :: new') = numConsumed new' + 1 := by
              simp [numConsumed, List.filter_cons, bne_iff_ne, hb]
            rw [this]
            rw [hdrop']
            rfl
        · intro a ha
          have hfa : ¬ f.value = a := ha f (List.mem_cons_self f new')
          have h1 : s0.mem a = s.mem a := by
            rw [hmem0]
            exact Mem.write_ne s.mem f.value w a (fun hc => hfa hc.symm)
          rw [hframe' a (fun g hg => ha g (List.mem_cons_of_mem f hg)), h1]
        · intro a ha
          have hstabn := hstab' a (fun g hg hv => ha g (List.mem_cons_of_mem f hg) hv)
          by_cases hfa : f.value = a
          · have hbt : f.type = MICRO_FLAG_BOOL := ha f (List.mem_cons_self f new') hfa
            have hwt : w = MicroValue.vBool true := by
              rcases hkind with ⟨_, _, _, hw⟩ | ⟨hb, _, _⟩
              · exact hw
              · exact absurd hbt hb
            have h0t : s0.mem a = MicroValue.vBool true := by
              rw [hmem0, hfa, hwt]
              exact Mem.write_self s.mem a (MicroValue.vBool true)
            exact ⟨fun _ => hstabn.1 h0t, fun _ => hstabn.1 h0t⟩
          · have h1 : s0.mem a = s.mem a := by
              rw [hmem0]
              exact Mem.write_ne s.mem f.value w a (fun hc => hfa hc.symm)
            refine ⟨fun hx => hstabn.1 (by rw [h1]; exact hx), ?_⟩
            rintro ⟨g, hg, hgv⟩
            rcases List.mem_cons.mp hg with hgf | hgn
            · exact absurd (hgf ▸ hgv) hfa
            · exact hstabn.2 ⟨g, hgn, hgv⟩
    · simp only [scanInner, hm, Bool.false_eq_true, if_false] at h
      exact ih tok rest s found t r s' fd h

/-- Once the `found` flag is set it stays set through the inner scan. -/
lemma scanInner_found_mono :
    ∀ (fs : List MicroFlag) (tok : String) (rest : List String) (s : ParseState)
      (t : String) (r : List String) (s' : ParseState) (fd : Bool),
      scanInner fs tok rest s true = ScanStep.next t r s' fd → fd = true := by
  intro fs
  induction fs with
  | nil =>
    intro tok rest s t r s' fd h
    injection h with ht hr2 hs2 hf2
    exact hf2.symm
  | cons f fs ih =>
    intro tok rest s t r s' fd h
    by_cases hm : flagMatch f tok
    · simp only [scanInner, hm, if_true] at h
      cases hd : dispatchFlag f tok rest { s with triggered := s.triggered ++ [f] } with
      | err s0 e0 => rw [hd] at h; cases h
      | next t0 r0 s0 fd0 =>
        rw [hd] at h
        exact ih t0 r0 s0 t r s' fd h
    · simp only [scanInner, hm, Bool.false_eq_true, if_false] at h
      exact ih tok rest s t r s' fd h

/-- When the inner scan completes with `found` still false, no declaration
matched anything, so the cursor never moved and every declaration fails to
match the scanned token (this is the state the C `!found` test sees). -/
lemma scanInner_not_found :
    ∀ (fs : List MicroFlag) (tok : String) (rest : List String) (s : ParseState)
      (t : String) (r : List String) (s' : ParseState),
      scanInner fs tok rest s false = ScanStep.next t r s' false →
      ∀ f ∈ fs, flagMatch f tok = false := by
  intro fs
  induction fs with
  | nil =>
    intro tok rest s t r s' _ f hf
    cases hf
  | cons g fs ih =>
    intro tok rest s t r s' h f hf
    by_cases hm : flagMatch g tok
    · simp only [scanInner, hm, if_true] at h
      cases hd : dispatchFlag g tok rest { s with triggered := s.triggered ++ [g] } with
      | err s0 e0 => rw [hd] at h; cases h
      | next t0 r0 s0 fd0 =>
        rw [hd] at h
        have := scanInner_found_mono fs t0 r0 s0 t r s' false h
        simp at this
    · simp only [scanInner, hm, Bool.false_eq_true, if_false] at h
      rcases List.mem_cons.mp hf with hfg | hfn
      · subst hfg
        exact Bool.eq_false_iff.mpr hm
      · exact ih tok rest s t r s' h f hfn

/-- Master inversion of an inner scan that returned an error: the ghost
list grows by the matched descriptors, the error is neither `OK` nor the
unknown-flag error, except for the unknown-type error exactly one usage
line was printed naming the last matched declaration (the one whose
dispatch failed, a member of the table) together with the expected value
shape of the error, frame and Bool-stability as for a completed scan. -/
lemma scanInner_err_inv :
    ∀ (fs : List MicroFlag) (tok : String) (rest : List String) (s : ParseState) (found : Bool)
      (s' : ParseState) (e : MicroFlagError),
      scanInner fs tok rest s found = ScanStep.err s' e →
      ∃ new, s'.triggered = s.triggered ++ new ∧ ¬ e = MicroFlagError.OK ∧
        ¬ e = MicroFlagError.UNKNOWN_FLAG ∧
        ((e = MicroFlagError.UNKNOWN_TYPE ∧ s'.out = s.out) ∨
         (¬ e = MicroFlagError.UNKNOWN_TYPE ∧ ∃ new2 f2, new = new2 ++ [f2] ∧ f2 ∈ fs ∧
            s'.out = s.out ++ [usageLine f2 (errPlaceholder e)])) ∧
        (∀ a, (∀ g ∈ new, ¬ g.value = a) → s'.mem a = s.mem a) ∧
        (∀ a, (∀ g ∈ new, g.value = a → g.type = MICRO_FLAG_BOOL) →
          ((s.mem a = MicroValue.vBool true → s'.mem a = MicroValue.vBool true) ∧
           ((∃ g ∈ new, g.value = a) → s'.mem a = MicroValue.vBool true))) := by
  intro fs
  induction fs with
  | nil =>
    intro tok rest s found s' e h
    cases h
  | cons f fs ih =>
    intro tok rest s found s' e h
    by_cases hm : flagMatch f tok
    · simp only [scanInner, hm, if_true] at h
      cases hd : dispatchFlag f tok rest { s with triggered := s.triggered ++ [f] } with
      | err s0 e0 =>
        rw [hd] at h
        injection h with hs2 he2
        subst hs2; subst he2
        obtain ⟨hmem0, htrig0, hok, hnf, hshape⟩ :=
          dispatchFlag_err_inv f tok rest { s with triggered := s.triggered ++ [f] } s0 e0 hd
        refine ⟨[f], by rw [htrig0], hok, hnf, ?_, ?_, ?_⟩
        · rcases hshape with ⟨hu, ho⟩ | ⟨hu, ho⟩
          · exact Or.inl ⟨hu, ho⟩
          · exact Or.inr ⟨hu, [], f, rfl, List.mem_cons_self f fs, ho⟩
        · intro a _
          rw [hmem0]
        · intro a ha
          refine ⟨fun hx => by rw [hmem0]; exact hx, ?_⟩
          rintro ⟨g, hg, hgv⟩
          rcases List.mem_cons.mp hg with hgf | hgn
          · subst hgf
            have hbt : g.type = MICRO_FLAG_BOOL := ha g (List.mem_cons_self g []) hgv
            rw [dispatchFlag_bool g tok rest _ hbt] at hd
            cases hd
          · simp at hgn
      | next t0 r0 s0 fd0 =>
        rw [hd] at h
        obtain ⟨hout0, htrig0, w, hmem0, hkind⟩ :=
          dispatchFlag_next_inv f tok t0 rest r0 { s with triggered := s.triggered ++ [f] } s0 fd0 hd
        obtain ⟨new', htrig', hok', hnf', hshape', hframe', hstab'⟩ :=
          ih t0 r0 s0 true s' e h
        refine ⟨f :: new', ?_, hok', hnf', ?_, ?_, ?_⟩
        · rw [htrig', htrig0]
          simp
        · rw [hout0] at hshape'
          rcases hshape' with ⟨hu, ho⟩ | ⟨hu, new2', f2, hsplit, hf2, ho⟩
          · exact Or.inl ⟨hu, ho⟩
          · refine Or.inr ⟨hu, f :: new2', f2, ?_, List.mem_cons_of_mem f hf2, ho⟩
            rw [hsplit]
            rfl
        · intro a ha
          have hfa : ¬ f.value = a := ha f (List.mem_cons_self f new')
          have h1 : s0.mem a = s.mem a := by
            rw [hmem0]
            exact Mem.write_ne s.mem f.value w a (fun hc => hfa hc.symm)
          rw [hframe' a (fun g hg => ha g (List.mem_cons_of_mem f hg)), h1]
        · intro a ha
          have hstabn := hstab' a (fun g hg hv => ha g (List.mem_cons_of_mem f hg) hv)
          by_cases hfa : f.value = a
          · have hbt : f.type = MICRO_FLAG_BOOL := ha f (List.mem_cons_self f new') hfa
            have hwt : w = MicroValue.vBool true := by
              rcases hkind with ⟨_, _, _, hw⟩ | ⟨hb, _, _⟩
              · exact hw
              · exact absurd hbt hb
            have h0t : s0.mem a = MicroValue.vBool true := by
              rw [hmem0, hfa, hwt]
              exact Mem.write_self s.mem a (MicroValue.vBool true)
            exact ⟨fun _ => hstabn.1 h0t, fun _ => hstabn.1 h0t⟩
          · have h1 : s0.mem a = s.mem a := by
              rw [hmem0]
              exact Mem.write_ne s.mem f.value w a (fun hc => hfa hc.symm)
            refine ⟨fun hx => hstabn.1 (by rw [h1]; exact hx), ?_⟩
            rintro ⟨g, hg, hgv⟩
            rcases List.mem_cons.mp hg with hgf | hgn
            · exact absurd (hgf ▸ hgv) hfa
            · exact hstabn.2 ⟨g, hgn, hgv⟩
    · simp only [scanInner, hm, Bool.false_eq_true, if_false] at h
      obtain ⟨new, htrig, hok, hnf, hshape, hframe, hstab⟩ := ih tok rest s found s' e h
      refine ⟨new, htrig, hok, hnf, ?_, hframe, hstab⟩
      rcases hshape with ⟨hu, ho⟩ | ⟨hu, new2, f2, hsplit, hf2, ho⟩
      · exact Or.inl ⟨hu, ho⟩
      · exact Or.inr ⟨hu, new2, f2, hsplit, List.mem_cons_of_mem f hf2, ho⟩

/-- Master invariant of the outer scan: the ghost list grows by the flags
matched during the run; on success nothing is printed; on any error other
than the unknown-type error exactly one diagnostic line is printed, and it
is either the usage line of the last matched declaration (the one whose
dispatch failed, a member of the table) with the expected value shape of
the error, or, for the unknown-flag error, the unknown-flag line naming a
scanned token matched by no declaration; the unknown-type error prints
nothing; cells not owned by a matched flag keep their initial contents; a
cell written only by Bool matches holds `true` from the first match on. -/
lemma scanOuter_inv (flags : List MicroFlag) :
    ∀ (fuel : Nat) (toks : List String) (s : ParseState),
      ∃ new, (scanOuter flags fuel toks s).1.triggered = s.triggered ++ new ∧
        ((scanOuter flags fuel toks s).2 = MicroFlagError.OK →
          (scanOuter flags fuel toks s).1.out = s.out) ∧
        (¬ (scanOuter flags fuel toks s).2 = MicroFlagError.OK →
          ¬ (scanOuter flags fuel toks s).2 = MicroFlagError.UNKNOWN_TYPE →
          ((¬ (scanOuter flags fuel toks s).2 = MicroFlagError.UNKNOWN_FLAG ∧
             ∃ new2 f2, new = new2 ++ [f2] ∧ f2 ∈ flags ∧
               (scanOuter flags fuel toks s).1.out = s.out ++
                 [usageLine f2 (errPlaceholder (scanOuter flags fuel toks s).2)]) ∨
           ((scanOuter flags fuel toks s).2 = MicroFlagError.UNKNOWN_FLAG ∧
             ∃ tok2, tok2 ∈ toks ∧ (∀ g ∈ flags, flagMatch g tok2 = false) ∧
               (scanOuter flags fuel toks s).1.out = s.out ++ [unknownLine tok2]))) ∧
        ((scanOuter flags fuel toks s).2 = MicroFlagError.UNKNOWN_TYPE →
          (scanOuter flags fuel toks s).1.out = s.out) ∧
        (∀ a, (∀ g ∈ new, ¬ g.value = a) → (scanOuter flags fuel toks s).1.mem a = s.mem a) ∧
        (∀ a, (∀ g ∈ new, g.value = a → g.type = MICRO_FLAG_BOOL) →
          ((s.mem a = MicroValue.vBool true →
             (scanOuter flags fuel toks s).1.mem a = MicroValue.vBool true) ∧
           ((∃ g ∈ new, g.value = a) →
             (scanOuter flags fuel toks s).1.mem a = MicroValue.vBool true))) := by
  intro fuel
  induction fuel with
  | zero =>
    intro toks s
    cases toks with
    | nil =>
      exact ⟨[], by simp [scanOuter], fun _ => rfl, fun h _ => absurd rfl h, fun _ => rfl,
        fun a _ => rfl, fun a _ => ⟨fun hx => hx, fun hx => by simp at hx⟩⟩
    | cons tok rest =>
      exact ⟨[], by simp [scanOuter], fun _ => rfl, fun h _ => absurd rfl h, fun _ => rfl,
        fun a _ => rfl, fun a _ => ⟨fun hx => hx, fun hx => by simp at hx⟩⟩
  | succ fuel ih =>
    intro toks s
    cases toks with
    | nil =>
      exact ⟨[], by simp [scanOuter], fun _ => rfl, fun h _ => absurd rfl h, fun _ => rfl,
        fun a _ => rfl, fun a _ => ⟨fun hx => hx, fun hx => by simp at hx⟩⟩
    | cons tok rest =>
      cases hi : scanInner flags tok rest s false with
      | err s0 e0 =>
        obtain ⟨new, htrig, hok, hnf, hshape, hframe, hstab⟩ :=
          scanInner_err_inv flags tok rest s false s0 e0 hi
        refine ⟨new, ?_, ?_, ?_, ?_, ?_, ?_⟩ <;>
          simp only [scanOuter, hi]
        · exact htrig
        · intro hx
          exact absurd hx hok
        · intro _ hut
          rcases hshape with ⟨hu, _⟩ | ⟨_, new2, f2, hsplit, hf2, ho⟩
          · exact absurd hu hut
          · exact Or.inl ⟨hnf, new2, f2, hsplit, hf2, ho⟩
        · intro hu
          rcases hshape with ⟨_, ho⟩ | ⟨hnu, _⟩
          · exact ho
          · exact absurd hu hnu
        · exact hframe
        · exact hstab
      | next t0 rest' s0 found =>
        obtain ⟨new0, htrig0, hout0, hdrop0, hframe0, hstab0⟩ :=
          scanInner_next_inv flags tok rest s false t0 rest' s0 found hi
        cases found with
        | true =>
          obtain ⟨new', htrig', hokout', herrout', hutout', hframe', hstab'⟩ := ih rest' s0
          refine ⟨new0 ++ new', ?_, ?_, ?_, ?_, ?_, ?_⟩ <;>
            simp only [scanOuter, hi, if_true]
          · rw [htrig', htrig0, List.append_assoc]
          · intro hx
            rw [hokout' hx, hout0]
          · intro hx hut
            rcases herrout' hx hut with ⟨hnf, new2, f2, hsplit, hf2, ho⟩ |
              ⟨hu, tok2, htk, hnm, ho⟩
            · refine Or.inl ⟨hnf, new0 ++ new2, f2, ?_, hf2, by rw [ho, hout0]⟩
              rw [hsplit, List.append_assoc]
            · refine Or.inr ⟨hu, tok2, ?_, hnm, by rw [ho, hout0]⟩
              have hmem : tok2 ∈ (tok :: rest).drop (numConsumed new0) := by
                rw [← hdrop0]
                exact List.mem_cons_of_mem t0 htk
              exact List.drop_subset _ _ hmem
          · intro hu
            rw [hutout' hu, hout0]
          · intro a ha
            rw [hframe' a (fun g hg => ha g (List.mem_append_right new0 hg)),
              hframe0 a (fun g hg => ha g (List.mem_append_left new' hg))]
          · intro a ha
            have hstabA := hstab0 a (fun g hg hv => ha g (List.mem_append_left new' hg) hv)
            have hstabB := hstab' a (fun g hg hv => ha g (List.mem_append_right new0 hg) hv)
            refine ⟨fun hx => hstabB.1 (hstabA.1 hx), ?_⟩
            rintro ⟨g, hg, hgv⟩
            rcases List.mem_append.mp hg with hg0 | hg1
            · exact hstabB.1 (hstabA.2 ⟨g, hg0, hgv⟩)
            · exact hstabB.2 ⟨g, hg1, hgv⟩
        | false =>
          refine ⟨new0, ?_, ?_, ?_, ?_, ?_, ?_⟩ <;>
            simp only [scanOuter, hi, Bool.false_eq_true, if_false]
          · exact htrig0
          · intro hx
            cases hx
          · intro _ _
            exact Or.inr ⟨by trivial, tok, List.mem_cons_self tok rest,
              scanInner_not_found flags tok rest s t0 rest' s0 hi, by rw [hout0]⟩
          · intro hu
            cases hu
          · exact hframe0
          · exact hstab0

/-- An empty filter result means the predicate rejects every element. -/
lemma nomatch_of_filter_nil (p : MicroFlag → Bool) (l : List MicroFlag)
    (h : l.filter p = []) : ∀ x ∈ l, p x = false := by
  induction l with
  | nil =>
    intro x hx
    cases hx
  | cons a l ih =>
    intro x hx
    by_cases pa : p a
    · simp [List.filter, pa] at h
    · rcases List.mem_cons.mp hx with hxa | hxl
      · subst hxa
        exact Bool.eq_false_iff.mpr pa
      · simp only [List.filter, Bool.eq_false_iff.mpr pa] at h
        exact ih h x hxl

/-- When the first (and, by the uniqueness bound, only) declaration
matching the token is a Bool flag, the whole inner scan just sets that
destination to `true`. -/
lemma scanInner_first_bool (fs : List MicroFlag) (f : MicroFlag) (tok : String)
    (rest : List String) (s : ParseState) (found : Bool)
    (hfind : fs.find? (fun g => flagMatch g tok) = some f)
    (huniq : (fs.filter (fun g => flagMatch g tok)).length ≤ 1)
    (hb : f.type = MICRO_FLAG_BOOL) :
    scanInner fs tok rest s found =
      ScanStep.next tok rest
        { s with mem := s.mem.write f.value (MicroValue.vBool true),
                 triggered := s.triggered ++ [f] } true := by
  induction fs generalizing s found with
  | nil => cases hfind
  | cons g fs ih =>
    by_cases hm : flagMatch g tok
    · have hgf : g = f := by
        simp only [List.find?, hm] at hfind
        exact Option.some.inj hfind
      subst hgf
      have hnil : fs.filter (fun x => flagMatch x tok) = [] := by
        simp only [List.filter, hm, List.length_cons] at huniq
        exact List.eq_nil_of_length_eq_zero (by omega)
      have hno := nomatch_of_filter_nil (fun x => flagMatch x tok) fs hnil
      simp only [scanInner, hm, if_true]
      rw [dispatchFlag_bool g tok rest { s with triggered := s.triggered ++ [g] } hb]
      exact scanInner_nomatch fs tok rest _ true hno
    · have hfind' : fs.find? (fun x => flagMatch x tok) = some f := by
        simp only [List.find?, hm] at hfind
        exact hfind
      have huniq' : (fs.filter (fun x => flagMatch x tok)).length ≤ 1 := by
        simp only [List.filter, Bool.eq_false_iff.mpr hm] at huniq
        exact huniq
      simp only [scanInner, hm, Bool.false_eq_true, if_false]
      exact ih s found hfind' huniq'

/-- When the first declaration matching the token takes a value, the value
token converts, and no declaration at all matches the value token, the
whole inner scan converts and stores exactly that one value. -/
lemma scanInner_first_val (fs : List MicroFlag) (f : MicroFlag) (tok v : String)
    (rest : List String) (s : ParseState) (found : Bool) (w : MicroValue)
    (hfind : fs.find? (fun g => flagMatch g tok) = some f)
    (hb : ¬ f.type = MICRO_FLAG_BOOL)
    (hc : convOf f.type v = some w)
    (hnov : ∀ g ∈ fs, flagMatch g v = false) :
    scanInner fs tok (v :: rest) s found =
      ScanStep.next v rest
        { s with mem := s.mem.write f.value w,
                 triggered := s.triggered ++ [f] } true := by
  induction fs generalizing s found with
  | nil => cases hfind
  | cons g fs ih =>
    by_cases hm : flagMatch g tok
    · have hgf : g = f := by
        simp only [List.find?, hm] at hfind
        exact Option.some.inj hfind
      subst hgf
      simp only [scanInner, hm, if_true]
      rw [dispatchFlag_val g tok v rest { s with triggered := s.triggered ++ [g] } w hb hc]
      exact scanInner_nomatch fs v rest _ true
        (fun x hx => hnov x (List.mem_cons_of_mem g hx))
    · have hfind' : fs.find? (fun x => flagMatch x tok) = some f := by
        simp only [List.find?, hm] at hfind
        exact hfind
      simp only [scanInner, hm, Bool.false_eq_true, if_false]
      exact ih s found hfind' (fun x hx => hnov x (List.mem_cons_of_mem g hx))

/-- Refinement of the outer scan against the specification-side semantics:
when the specification parse succeeds, every token matches at most one
declaration, and no consumed value token matches any declaration, the
implementation returns `OK` with exactly the memory computed by the
specification and prints nothing. -/
lemma scanOuter_spec (flags : List MicroFlag) :
    ∀ (fuel : Nat) (toks : List String) (m m' : Mem) (vals : List String)
      (out0 : List String) (trig0 : List MicroFlag),
      toks.length ≤ fuel →
      specParse flags toks m = some (m', vals) →
      (∀ t ∈ toks, (flags.filter (fun g => flagMatch g t)).length ≤ 1) →
      (∀ v ∈ vals, ∀ g ∈ flags, flagMatch g v = false) →
      ∃ trig', scanOuter flags fuel toks ⟨m, out0, trig0⟩ =
        (⟨m', out0, trig'⟩, MicroFlagError.OK) := by
  intro fuel
  induction fuel with
  | zero =>
    intro toks m m' vals out0 trig0 hfuel hs _ _
    cases toks with
    | nil =>
      simp only [specParse] at hs
      injection hs with hp
      injection hp with hm hv
      subst hm
      exact ⟨trig0, rfl⟩
    | cons tok rest => simp at hfuel
  | succ fuel ih =>
    intro toks m m' vals out0 trig0 hfuel hs huniq hnov
    cases toks with
    | nil =>
      simp only [specParse] at hs
      injection hs with hp
      injection hp with hm hv
      subst hm
      exact ⟨trig0, rfl⟩
    | cons tok rest =>
      cases hfind : flags.find? (fun g => flagMatch g tok) with
      | none => simp [specParse, hfind] at hs
      | some f =>
        by_cases hb : f.type = MICRO_FLAG_BOOL
        · simp only [specParse, hfind, hb, if_true] at hs
          have huniqt : (flags.filter (fun g => flagMatch g tok)).length ≤ 1 :=
            huniq tok (List.mem_cons_self tok rest)
          have hstep := scanInner_first_bool flags f tok rest ⟨m, out0, trig0⟩ false
            hfind huniqt hb
          obtain ⟨trig', hrec⟩ := ih rest (m.write f.value (MicroValue.vBool true)) m' vals
            out0 (trig0 ++ [f]) (by simp only [List.length_cons] at hfuel; omega)
            hs (fun t ht => huniq t (List.mem_cons_of_mem tok ht)) hnov
          refine ⟨trig', ?_⟩
          simp only [scanOuter, hstep, if_true]
          exact hrec
        · simp only [specParse, hfind, hb, if_false] at hs
          cases rest with
          | nil => simp at hs
          | cons v rest' =>
            cases hcv : convOf f.type v with
            | none => simp [hcv] at hs
            | some w =>
              simp only [hcv] at hs
              cases hps : specParse flags rest' (m.write f.value w) with
              | none => simp [hps] at hs
              | some p =>
                obtain ⟨p1, p2⟩ := p
                simp only [hps, Option.map] at hs
                injection hs with hp
                cases hp
                have hnovv : ∀ g ∈ flags, flagMatch g v = false :=
                  fun g hg => hnov v (List.mem_cons_self v p2) g hg
                have hstep := scanInner_first_val flags f tok v rest' ⟨m, out0, trig0⟩ false w
                  hfind hb hcv hnovv
                obtain ⟨trig', hrec⟩ := ih rest' (m.write f.value w) m' p2
                  out0 (trig0 ++ [f])
                  (by simp only [List.length_cons] at hfuel; omega)
                  hps
                  (fun t ht => huniq t (List.mem_cons_of_mem tok (List.mem_cons_of_mem v ht)))
                  (fun x hx g hg => hnov x (List.mem_cons_of_mem v hx) g hg)
                refine ⟨trig', ?_⟩
                simp only [scanOuter, hstep, if_true]
                exact hrec

/-- The outer scan on an exhausted token list returns `OK`. -/
lemma scanOuter_nil (flags : List MicroFlag) (fuel : Nat) (s : ParseState) :
    scanOuter flags fuel [] s = (s, MicroFlagError.OK) := by
  cases fuel <;> rfl

/-- One unfolding step of the outer scan with fuel to spare. -/
lemma scanOuter_cons (flags : List MicroFlag) (fuel : Nat) (tok : String)
    (rest : List String) (s : ParseState) :
    scanOuter flags (fuel + 1) (tok :: rest) s =
      match scanInner flags tok rest s false with
      | ScanStep.err s' e => (s', e)
      | ScanStep.next _ rest' s' found =>
        if found then scanOuter flags fuel rest' s'
        else ({ s' with out := s'.out ++ [unknownLine tok] }, MicroFlagError.UNKNOWN_FLAG) := rfl

/-- Unfolding `micro_flag_parse` to the outer scan over `argv[1..]`. -/
lemma micro_flag_parse_eq (flags : List MicroFlag) (p : String) (toks : List String) (m : Mem) :
    micro_flag_parse flags (p :: toks) m =
      scanOuter flags (toks.length + 1) toks { mem := m, out := [], triggered := [] } := rfl


/-- Claim C1 counterexample: with an Int flag named "-n" and a Bool flag
named "5", parsing ["prog", "-n", "5"] consumes "5" as the value of "-n"
(destination 0 receives 5), yet the later declaration named "5" is still
matched against the consumed value token in the same inner scan: its
destination is mutated and it appears in the ghost trigger list, refuting
the claim that a consumed value token is never matched as a flag name. -/
theorem c1_counterexample :
    (micro_flag_parse [⟨MICRO_FLAG_INT, 0, some "-n", none, "number"⟩,
                       ⟨MICRO_FLAG_BOOL, 1, some "5", none, "oddly named"⟩]
        ["prog", "-n", "5"] memUndef).2 = MicroFlagError.OK ∧
    (micro_flag_parse [⟨MICRO_FLAG_INT, 0, some "-n", none, "number"⟩,
                       ⟨MICRO_FLAG_BOOL, 1, some "5", none, "oddly named"⟩]
        ["prog", "-n", "5"] memUndef).1.mem 0 = MicroValue.vInt 5 ∧
    (micro_flag_parse [⟨MICRO_FLAG_INT, 0, some "-n", none, "number"⟩,
                       ⟨MICRO_FLAG_BOOL, 1, some "5", none, "oddly named"⟩]
        ["prog", "-n", "5"] memUndef).1.mem 1 = MicroValue.vBool true ∧
    (micro_flag_parse [⟨MICRO_FLAG_INT, 0, some "-n", none, "number"⟩,
                       ⟨MICRO_FLAG_BOOL, 1, some "5", none, "oddly named"⟩]
        ["prog", "-n", "5"] memUndef).1.triggered =
      [⟨MICRO_FLAG_INT, 0, some "-n", none, "number"⟩,
       ⟨MICRO_FLAG_BOOL, 1, some "5", none, "oddly named"⟩] := by
  exact ⟨rfl, rfl, rfl, rfl⟩

/-- Claim C1 (amended): a completed inner scan consumes exactly one
following token per value-taking match, those consumed tokens are dropped
from the remaining token stream, and when the inner scan completes the
outer scan resumes strictly after them, never revisiting a consumed value
token as an outer token; the consumed value token is, however, still
compared against the remaining declarations of the same inner scan (see
the counterexample). -/
theorem c1_amended :
    (∀ (fs : List MicroFlag) (tok : String) (rest : List String) (s : ParseState)
       (found : Bool) (t : String) (r : List String) (s' : ParseState) (fd : Bool),
       scanInner fs tok rest s found = ScanStep.next t r s' fd →
       ∃ new, s'.triggered = s.triggered ++ new ∧
         t :: r = List.drop (numConsumed new) (tok :: rest)) ∧
    (∀ (flags : List MicroFlag) (fuel : Nat) (tok : String) (rest : List String)
       (s : ParseState) (t : String) (r : List String) (s' : ParseState),
       scanInner flags tok rest s false = ScanStep.next t r s' true →
       scanOuter flags (fuel + 1) (tok :: rest) s = scanOuter flags fuel r s') := by
  constructor
  · intro fs tok rest s found t r s' fd h
    obtain ⟨new, h1, _, h3, _, _⟩ := scanInner_next_inv fs tok rest s found t r s' fd h
    exact ⟨new, h1, h3⟩
  · intro flags fuel tok rest s t r s' h
    rw [scanOuter_cons, h]
    rfl

/-- Witness for the amended claim C1 at a concrete String flag. -/
theorem c1_amended_witness :
    (∃ new, [(⟨MICRO_FLAG_STR, 0, some "-o", none, "out"⟩ : MicroFlag)] = [] ++ new ∧
       ["file"] = List.drop (numConsumed new) ["-o", "file"]) ∧
    scanOuter [⟨MICRO_FLAG_STR, 0, some "-o", none, "out"⟩] 1 ["-o", "file"]
        ⟨memUndef, [], []⟩ =
      scanOuter [⟨MICRO_FLAG_STR, 0, some "-o", none, "out"⟩] 0 []
        ⟨memUndef.write 0 (MicroValue.vStr "file"), [],
         [⟨MICRO_FLAG_STR, 0, some "-o", none, "out"⟩]⟩ := by
  constructor
  · exact c1_amended.1 [⟨MICRO_FLAG_STR, 0, some "-o", none, "out"⟩] "-o" ["file"]
      ⟨memUndef, [], []⟩ false "file" []
      ⟨memUndef.write 0 (MicroValue.vStr "file"), [],
       [⟨MICRO_FLAG_STR, 0, some "-o", none, "out"⟩]⟩ true rfl
  · exact c1_amended.2 [⟨MICRO_FLAG_STR, 0, some "-o", none, "out"⟩] 0 "-o" ["file"]
      ⟨memUndef, [], []⟩ "file" []
      ⟨memUndef.write 0 (MicroValue.vStr "file"), [],
       [⟨MICRO_FLAG_STR, 0, some "-o", none, "out"⟩]⟩ rfl

/-- Claim C2 counterexample: the table [Int "-n" at 0, Int "5" at 1] with
arguments ["-n", "5"] is well formed for the specification semantics (the
token "-n" is recognized and is followed by the valid integer value "5"),
yet the implementation fails with MISSING_INT instead of returning OK: the
consumed value token "5" is matched by the later declaration named "5",
which then demands a further value token. -/
theorem c2_counterexample :
    (specParse [⟨MICRO_FLAG_INT, 0, some "-n", none, "num"⟩,
                ⟨MICRO_FLAG_INT, 1, some "5", none, "odd"⟩]
        ["-n", "5"] memUndef).isSome = true ∧
    (micro_flag_parse [⟨MICRO_FLAG_INT, 0, some "-n", none, "num"⟩,
                       ⟨MICRO_FLAG_INT, 1, some "5", none, "odd"⟩]
        ["prog", "-n", "5"] memUndef).2 = MicroFlagError.MISSING_INT := by
  exact ⟨rfl, rfl⟩

/-- Claim C2 (amended): restricted to flag tables declaring no Double flag
(the fragment on which the conversion models are exact; the Double part of
the claim concerns the binary rounding and ERANGE range check of strtod,
which are outside this embedding): when additionally every token matches
at most one declaration and no consumed value token matches any
declaration, micro_flag_parse returns OK and the final memory is exactly
the one computed by the specification semantics, so every matched
destination holds the exact converted value; the integer round-trip holds:
the text "42" through an Int flag yields the integer 42. -/
theorem c2_amended :
    (∀ (flags : List MicroFlag) (p : String) (toks : List String) (m m' : Mem)
       (vals : List String),
       (∀ f ∈ flags, ¬ f.type = MICRO_FLAG_DOUBLE) →
       specParse flags toks m = some (m', vals) →
       (∀ t ∈ toks, (flags.filter (fun g => flagMatch g t)).length ≤ 1) →
       (∀ v ∈ vals, ∀ g ∈ flags, flagMatch g v = false) →
       (micro_flag_parse flags (p :: toks) m).2 = MicroFlagError.OK ∧
       (micro_flag_parse flags (p :: toks) m).1.mem = m') ∧
    (micro_flag_parse [⟨MICRO_FLAG_INT, 0, some "-n", none, "n"⟩]
        ["prog", "-n", "42"] memUndef).1.mem 0 = MicroValue.vInt 42 := by
  refine ⟨?_, by decide⟩
  intro flags p toks m m' vals _ hs huniq hnov
  obtain ⟨trig', heq⟩ := scanOuter_spec flags (toks.length + 1) toks m m' vals [] []
    (Nat.le_succ _) hs huniq hnov
  rw [micro_flag_parse_eq, heq]
  exact ⟨rfl, rfl⟩

/-- Witness for the amended claim C2 at a one-flag Int table. -/
theorem c2_amended_witness :
    (micro_flag_parse [⟨MICRO_FLAG_INT, 0, some "-n", none, "n"⟩] ["prog", "-n", "7"]
        memUndef).2 = MicroFlagError.OK ∧
    (micro_flag_parse [⟨MICRO_FLAG_INT, 0, some "-n", none, "n"⟩] ["prog", "-n", "7"]
        memUndef).1.mem = memUndef.write 0 (MicroValue.vInt 7) :=
  c2_amended.1 [⟨MICRO_FLAG_INT, 0, some "-n", none, "n"⟩] "prog" ["-n", "7"] memUndef
    (memUndef.write 0 (MicroValue.vInt 7)) ["7"] (by decide) rfl (by decide) (by decide)


/-- Claim C3 counterexample: two Int flags declared with the identical
short name "-n" and different destinations. A single occurrence of "-n"
with value "7" triggers only the first declaration (destination 0 becomes
7) while the second destination stays untouched: after the first match
consumes the value token, the second declaration is compared against "7",
not against "-n". This refutes the claim for value-taking kinds. -/
theorem c3_counterexample :
    (micro_flag_parse [⟨MICRO_FLAG_INT, 0, some "-n", none, "a"⟩,
                       ⟨MICRO_FLAG_INT, 1, some "-n", none, "b"⟩]
        ["prog", "-n", "7"] memUndef).2 = MicroFlagError.OK ∧
    (micro_flag_parse [⟨MICRO_FLAG_INT, 0, some "-n", none, "a"⟩,
                       ⟨MICRO_FLAG_INT, 1, some "-n", none, "b"⟩]
        ["prog", "-n", "7"] memUndef).1.mem 0 = MicroValue.vInt 7 ∧
    (micro_flag_parse [⟨MICRO_FLAG_INT, 0, some "-n", none, "a"⟩,
                       ⟨MICRO_FLAG_INT, 1, some "-n", none, "b"⟩]
        ["prog", "-n", "7"] memUndef).1.mem 1 = MicroValue.undef := by
  exact ⟨rfl, rfl, rfl⟩

/-- Claim C3 (amended): for Bool flags the no-short-circuit inner scan does
trigger both declarations in the same linear scan: a table of two Bool
flags with the identical short name and different destinations has both
declarations in the trigger list and both destinations set to true after a
single occurrence of that token. -/
theorem c3_amended (nm : String) (l1 l2 : Option String) (d1 d2 : String)
    (a1 a2 : Nat) (p : String) (m : Mem) (hne : ¬ a1 = a2) :
    (micro_flag_parse [⟨MICRO_FLAG_BOOL, a1, some nm, l1, d1⟩,
                       ⟨MICRO_FLAG_BOOL, a2, some nm, l2, d2⟩] [p, nm] m).2 =
      MicroFlagError.OK ∧
    (micro_flag_parse [⟨MICRO_FLAG_BOOL, a1, some nm, l1, d1⟩,
                       ⟨MICRO_FLAG_BOOL, a2, some nm, l2, d2⟩] [p, nm] m).1.mem a1 =
      MicroValue.vBool true ∧
    (micro_flag_parse [⟨MICRO_FLAG_BOOL, a1, some nm, l1, d1⟩,
                       ⟨MICRO_FLAG_BOOL, a2, some nm, l2, d2⟩] [p, nm] m).1.mem a2 =
      MicroValue.vBool true ∧
    (micro_flag_parse [⟨MICRO_FLAG_BOOL, a1, some nm, l1, d1⟩,
                       ⟨MICRO_FLAG_BOOL, a2, some nm, l2, d2⟩] [p, nm] m).1.triggered =
      [⟨MICRO_FLAG_BOOL, a1, some nm, l1, d1⟩, ⟨MICRO_FLAG_BOOL, a2, some nm, l2, d2⟩] := by
  have hm1 : flagMatch ⟨MICRO_FLAG_BOOL, a1, some nm, l1, d1⟩ nm = true := by
    simp [flagMatch, nameMatch]
  have hm2 : flagMatch ⟨MICRO_FLAG_BOOL, a2, some nm, l2, d2⟩ nm = true := by
    simp [flagMatch, nameMatch]
  have hs : scanInner [⟨MICRO_FLAG_BOOL, a1, some nm, l1, d1⟩,
      ⟨MICRO_FLAG_BOOL, a2, some nm, l2, d2⟩] nm [] (⟨m, [], []⟩ : ParseState) false =
      ScanStep.next nm []
        ⟨(m.write a1 (MicroValue.vBool true)).write a2 (MicroValue.vBool true), [],
         [⟨MICRO_FLAG_BOOL, a1, some nm, l1, d1⟩, ⟨MICRO_FLAG_BOOL, a2, some nm, l2, d2⟩]⟩
        true := by
    simp only [scanInner, hm1, hm2, if_true]
    rw [dispatchFlag_bool ⟨MICRO_FLAG_BOOL, a1, some nm, l1, d1⟩ nm [] _ rfl]
    simp only [hm2, if_true]
    rw [dispatchFlag_bool ⟨MICRO_FLAG_BOOL, a2, some nm, l2, d2⟩ nm [] _ rfl]
    rfl
  refine ⟨?_, ?_, ?_, ?_⟩
  · rw [micro_flag_parse_eq, scanOuter_cons, hs]
    rfl
  · rw [micro_flag_parse_eq, scanOuter_cons, hs]
    show ((m.write a1 (MicroValue.vBool true)).write a2 (MicroValue.vBool true)) a1 =
      MicroValue.vBool true
    rw [Mem.write_ne _ a2 (MicroValue.vBool true) a1 hne]
    exact Mem.write_self m a1 (MicroValue.vBool true)
  · rw [micro_flag_parse_eq, scanOuter_cons, hs]
    show ((m.write a1 (MicroValue.vBool true)).write a2 (MicroValue.vBool true)) a2 =
      MicroValue.vBool true
    exact Mem.write_self _ a2 (MicroValue.vBool true)
  · rw [micro_flag_parse_eq, scanOuter_cons, hs]
    rfl

/-- Witness for the amended claim C3 at concrete addresses 0 and 1. -/
theorem c3_amended_witness :
    (micro_flag_parse [⟨MICRO_FLAG_BOOL, 0, some "-v", none, "x"⟩,
                       ⟨MICRO_FLAG_BOOL, 1, some "-v", none, "y"⟩]
        ["prog", "-v"] memUndef).2 = MicroFlagError.OK ∧
    (micro_flag_parse [⟨MICRO_FLAG_BOOL, 0, some "-v", none, "x"⟩,
                       ⟨MICRO_FLAG_BOOL, 1, some "-v", none, "y"⟩]
        ["prog", "-v"] memUndef).1.mem 0 = MicroValue.vBool true ∧
    (micro_flag_parse [⟨MICRO_FLAG_BOOL, 0, some "-v", none, "x"⟩,
                       ⟨MICRO_FLAG_BOOL, 1, some "-v", none, "y"⟩]
        ["prog", "-v"] memUndef).1.mem 1 = MicroValue.vBool true ∧
    (micro_flag_parse [⟨MICRO_FLAG_BOOL, 0, some "-v", none, "x"⟩,
                       ⟨MICRO_FLAG_BOOL, 1, some "-v", none, "y"⟩]
        ["prog", "-v"] memUndef).1.triggered =
      [⟨MICRO_FLAG_BOOL, 0, some "-v", none, "x"⟩,
       ⟨MICRO_FLAG_BOOL, 1, some "-v", none, "y"⟩] :=
  c3_amended "-v" none none "x" "y" 0 1 "prog" memUndef (by decide)

/-- Claim C4 counterexample: a flag whose type tag 7 lies outside the
enum. Parsing its token returns the UNKNOWN_TYPE error with an empty
output: no diagnostic line is emitted before this error variant, refuting
the claim that every error variant is preceded by a diagnostic. -/
theorem c4_counterexample :
    (micro_flag_parse [⟨7, 0, some "-x", none, "bad"⟩] ["prog", "-x"] memUndef).2 =
      MicroFlagError.UNKNOWN_TYPE ∧
    (micro_flag_parse [⟨7, 0, some "-x", none, "bad"⟩] ["prog", "-x"] memUndef).1.out = [] := by
  exact ⟨rfl, rfl⟩

/-- Claim C4 (amended): for every error variant except UnknownType,
micro_flag_parse emits exactly one diagnostic line before returning, and
that line names the offender: for the value-arity and conversion errors it
is the usage line of the offending flag — the last matched declaration,
a member of the table, whose dispatch failed — with the expected value
shape determined by the error; for the unknown-flag error it is the
unknown-flag line naming the offending token, a scanned argument token
matched by no declaration. The defensive UnknownType error returns without
emitting any diagnostic, on every input. -/
theorem c4_amended (flags : List MicroFlag) (argv : List String) (m : Mem) :
    (¬ (micro_flag_parse flags argv m).2 = MicroFlagError.OK →
     ¬ (micro_flag_parse flags argv m).2 = MicroFlagError.UNKNOWN_TYPE →
     ((¬ (micro_flag_parse flags argv m).2 = MicroFlagError.UNKNOWN_FLAG ∧
        ∃ f, f ∈ flags ∧
          (∃ pre, (micro_flag_parse flags argv m).1.triggered = pre ++ [f]) ∧
          (micro_flag_parse flags argv m).1.out =
            [usageLine f (errPlaceholder (micro_flag_parse flags argv m).2)]) ∨
      ((micro_flag_parse flags argv m).2 = MicroFlagError.UNKNOWN_FLAG ∧
        ∃ tok, tok ∈ argv.drop 1 ∧ (∀ g ∈ flags, flagMatch g tok = false) ∧
          (micro_flag_parse flags argv m).1.out = [unknownLine tok]))) ∧
    ((micro_flag_parse flags argv m).2 = MicroFlagError.UNKNOWN_TYPE →
      (micro_flag_parse flags argv m).1.out = []) := by
  obtain ⟨new, htrig, _, herr, hut, _, _⟩ :=
    scanOuter_inv flags argv.length (argv.drop 1) ⟨m, [], []⟩
  constructor
  · intro h1 h2
    rcases herr h1 h2 with ⟨hnf, new2, f2, hsplit, hf2, ho⟩ | ⟨hu, tok2, htk, hnm, ho⟩
    · refine Or.inl ⟨hnf, f2, hf2, ⟨new2, ?_⟩, ho⟩
      have htrig2 : (micro_flag_parse flags argv m).1.triggered = new := htrig
      rw [htrig2, hsplit]
    · exact Or.inr ⟨hu, tok2, htk, hnm, ho⟩
  · intro hu
    exact hut hu

/-- Witness for the amended claim C4: the unknown-flag error at "--bogus",
a missing-value error on an Int flag, and the silent UnknownType error on
an out-of-enum kind. -/
theorem c4_amended_witness :
    ((¬ (micro_flag_parse ([] : List MicroFlag) ["prog", "--bogus"] memUndef).2 =
          MicroFlagError.UNKNOWN_FLAG ∧
       ∃ f, f ∈ ([] : List MicroFlag) ∧
         (∃ pre, (micro_flag_parse ([] : List MicroFlag) ["prog", "--bogus"]
            memUndef).1.triggered = pre ++ [f]) ∧
         (micro_flag_parse ([] : List MicroFlag) ["prog", "--bogus"] memUndef).1.out =
           [usageLine f (errPlaceholder
             (micro_flag_parse ([] : List MicroFlag) ["prog", "--bogus"] memUndef).2)]) ∨
     ((micro_flag_parse ([] : List MicroFlag) ["prog", "--bogus"] memUndef).2 =
          MicroFlagError.UNKNOWN_FLAG ∧
       ∃ tok, tok ∈ (["prog", "--bogus"] : List String).drop 1 ∧
         (∀ g ∈ ([] : List MicroFlag), flagMatch g tok = false) ∧
         (micro_flag_parse ([] : List MicroFlag) ["prog", "--bogus"] memUndef).1.out =
           [unknownLine tok])) ∧
    ((¬ (micro_flag_parse [⟨MICRO_FLAG_INT, 0, some "-n", none, "n"⟩] ["prog", "-n"]
          memUndef).2 = MicroFlagError.UNKNOWN_FLAG ∧
       ∃ f, f ∈ [(⟨MICRO_FLAG_INT, 0, some "-n", none, "n"⟩ : MicroFlag)] ∧
         (∃ pre, (micro_flag_parse [⟨MICRO_FLAG_INT, 0, some "-n", none, "n"⟩] ["prog", "-n"]
            memUndef).1.triggered = pre ++ [f]) ∧
         (micro_flag_parse [⟨MICRO_FLAG_INT, 0, some "-n", none, "n"⟩] ["prog", "-n"]
            memUndef).1.out =
           [usageLine f (errPlaceholder
             (micro_flag_parse [⟨MICRO_FLAG_INT, 0, some "-n", none, "n"⟩] ["prog", "-n"]
               memUndef).2)]) ∨
     ((micro_flag_parse [⟨MICRO_FLAG_INT, 0, some "-n", none, "n"⟩] ["prog", "-n"]
          memUndef).2 = MicroFlagError.UNKNOWN_FLAG ∧
       ∃ tok, tok ∈ (["prog", "-n"] : List String).drop 1 ∧
         (∀ g ∈ [(⟨MICRO_FLAG_INT, 0, some "-n", none, "n"⟩ : MicroFlag)],
            flagMatch g tok = false) ∧
         (micro_flag_parse [⟨MICRO_FLAG_INT, 0, some "-n", none, "n"⟩] ["prog", "-n"]
            memUndef).1.out = [unknownLine tok])) ∧
    (micro_flag_parse [⟨7, 0, some "-x", none, "bad"⟩] ["prog", "-x"] memUndef).1.out = [] :=
  ⟨(c4_amended [] ["prog", "--bogus"] memUndef).1 (by decide) (by decide),
   (c4_amended [⟨MICRO_FLAG_INT, 0, some "-n", none, "n"⟩] ["prog", "-n"] memUndef).1
     (by decide) (by decide),
   (c4_amended [⟨7, 0, some "-x", none, "bad"⟩] ["prog", "-x"] memUndef).2 rfl⟩

/-- Claim C5 counterexample: the token "42abc" is not a valid integer
literal, so by the claim the parse must fail with NotAnInt; the code
instead accepts it, writing the parsed prefix 42 and returning OK, because
strtol ignores trailing non-digit characters. -/
theorem c5_counterexample :
    (micro_flag_parse [⟨MICRO_FLAG_INT, 0, some "-n", none, "num"⟩]
        ["prog", "-n", "42abc"] memUndef).2 = MicroFlagError.OK ∧
    (micro_flag_parse [⟨MICRO_FLAG_INT, 0, some "-n", none, "num"⟩]
        ["prog", "-n", "42abc"] memUndef).1.mem 0 = MicroValue.vInt 42 := by
  exact ⟨rfl, rfl⟩

/-- Claim C5 (amended): for an Int flag, a missing following token fails
with MissingInt leaving memory unchanged; with a following token, the
parse fails with NotAnInt exactly when the base-10 prefix parse consumes
no digits or the parsed value lies outside the 32-bit int range; otherwise
the parsed prefix value is written to the destination and the parse
succeeds (tokens with trailing non-digit characters after a valid prefix
are accepted with the prefix value). -/
theorem c5_amended (nm : String) (l : Option String) (d : String) (a : Nat)
    (v p : String) (m : Mem) :
    ((micro_flag_parse [⟨MICRO_FLAG_INT, a, some nm, l, d⟩] [p, nm] m).2 =
        MicroFlagError.MISSING_INT ∧
     (micro_flag_parse [⟨MICRO_FLAG_INT, a, some nm, l, d⟩] [p, nm] m).1.mem = m) ∧
    (strtol10 v = none →
      (micro_flag_parse [⟨MICRO_FLAG_INT, a, some nm, l, d⟩] [p, nm, v] m).2 =
        MicroFlagError.NOT_AN_INT ∧
      (micro_flag_parse [⟨MICRO_FLAG_INT, a, some nm, l, d⟩] [p, nm, v] m).1.mem = m) ∧
    (∀ n : Int, strtol10 v = some n → (INT_MAX < n ∨ n < INT_MIN) →
      (micro_flag_parse [⟨MICRO_FLAG_INT, a, some nm, l, d⟩] [p, nm, v] m).2 =
        MicroFlagError.NOT_AN_INT ∧
      (micro_flag_parse [⟨MICRO_FLAG_INT, a, some nm, l, d⟩] [p, nm, v] m).1.mem = m) ∧
    (∀ n : Int, strtol10 v = some n → ¬ (INT_MAX < n ∨ n < INT_MIN) →
      (micro_flag_parse [⟨MICRO_FLAG_INT, a, some nm, l, d⟩] [p, nm, v] m).2 =
        MicroFlagError.OK ∧
      (micro_flag_parse [⟨MICRO_FLAG_INT, a, some nm, l, d⟩] [p, nm, v] m).1.mem =
        m.write a (MicroValue.vInt n)) := by
  have hm : flagMatch ⟨MICRO_FLAG_INT, a, some nm, l, d⟩ nm = true := by
    simp [flagMatch, nameMatch]
  refine ⟨?_, ?_, ?_, ?_⟩
  · have hs : scanInner [⟨MICRO_FLAG_INT, a, some nm, l, d⟩] nm []
        (⟨m, [], []⟩ : ParseState) false =
        ScanStep.err ⟨m, [usageLine ⟨MICRO_FLAG_INT, a, some nm, l, d⟩ "<integer>"],
          [⟨MICRO_FLAG_INT, a, some nm, l, d⟩]⟩ MicroFlagError.MISSING_INT := by
      simp only [scanInner, hm, if_true]
      rw [dispatchFlag_int_missing _ nm _ rfl]
      rfl
    rw [micro_flag_parse_eq, scanOuter_cons, hs]
    exact ⟨rfl, rfl⟩
  · intro hn
    have hs : scanInner [⟨MICRO_FLAG_INT, a, some nm, l, d⟩] nm [v]
        (⟨m, [], []⟩ : ParseState) false =
        ScanStep.err ⟨m, [usageLine ⟨MICRO_FLAG_INT, a, some nm, l, d⟩ "<integer>"],
          [⟨MICRO_FLAG_INT, a, some nm, l, d⟩]⟩ MicroFlagError.NOT_AN_INT := by
      simp only [scanInner, hm, if_true]
      rw [dispatchFlag_int_none _ nm v [] _ rfl hn]
      rfl
    rw [micro_flag_parse_eq, scanOuter_cons, hs]
    exact ⟨rfl, rfl⟩
  · intro n hn hr
    have hs : scanInner [⟨MICRO_FLAG_INT, a, some nm, l, d⟩] nm [v]
        (⟨m, [], []⟩ : ParseState) false =
        ScanStep.err ⟨m, [usageLine ⟨MICRO_FLAG_INT, a, some nm, l, d⟩ "<integer>"],
          [⟨MICRO_FLAG_INT, a, some nm, l, d⟩]⟩ MicroFlagError.NOT_AN_INT := by
      simp only [scanInner, hm, if_true]
      rw [dispatchFlag_int_range _ nm v [] _ n rfl hn hr]
      rfl
    rw [micro_flag_parse_eq, scanOuter_cons, hs]
    exact ⟨rfl, rfl⟩
  · intro n hn hr
    have hs : scanInner [⟨MICRO_FLAG_INT, a, some nm, l, d⟩] nm [v]
        (⟨m, [], []⟩ : ParseState) false =
        ScanStep.next v [] ⟨m.write a (MicroValue.vInt n), [],
          [⟨MICRO_FLAG_INT, a, some nm, l, d⟩]⟩ true := by
      simp only [scanInner, hm, if_true]
      rw [dispatchFlag_int_ok _ nm v [] _ n rfl hn hr]
      rfl
    rw [micro_flag_parse_eq, scanOuter_cons, hs]
    exact ⟨rfl, rfl⟩

/-- Witness for the amended claim C5: missing token, non-numeric token and
the round trip of "42". -/
theorem c5_amended_witness :
    (micro_flag_parse [⟨MICRO_FLAG_INT, 0, some "-n", none, "d"⟩] ["prog", "-n"]
        memUndef).2 = MicroFlagError.MISSING_INT ∧
    (micro_flag_parse [⟨MICRO_FLAG_INT, 0, some "-n", none, "d"⟩] ["prog", "-n", "abc"]
        memUndef).2 = MicroFlagError.NOT_AN_INT ∧
    (micro_flag_parse [⟨MICRO_FLAG_INT, 0, some "-n", none, "d"⟩] ["prog", "-n", "42"]
        memUndef).2 = MicroFlagError.OK ∧
    (micro_flag_parse [⟨MICRO_FLAG_INT, 0, some "-n", none, "d"⟩] ["prog", "-n", "42"]
        memUndef).1.mem = memUndef.write 0 (MicroValue.vInt 42) :=
  ⟨(c5_amended "-n" none "d" 0 "abc" "prog" memUndef).1.1,
   ((c5_amended "-n" none "d" 0 "abc" "prog" memUndef).2.1 rfl).1,
   ((c5_amended "-n" none "d" 0 "42" "prog" memUndef).2.2.2 42 rfl (by decide)).1,
   ((c5_amended "-n" none "d" 0 "42" "prog" memUndef).2.2.2 42 rfl (by decide)).2⟩

/-- Claim C6: a token matched by no declaration makes the outer scan stop
with UNKNOWN_FLAG, printing the unknown-flag line naming that token; the
state accumulated so far is retained unchanged (no rollback, and no
mutation for the unrecognized token itself); at the parse level the whole
call returns the initial memory untouched together with the single
diagnostic line. -/
theorem c6_unknown_flag (flags : List MicroFlag) (fuel : Nat) (tok p : String)
    (rest : List String) (s : ParseState) (m : Mem)
    (h : ∀ f ∈ flags, flagMatch f tok = false) :
    scanOuter flags (fuel + 1) (tok :: rest) s =
      ({ s with out := s.out ++ [unknownLine tok] }, MicroFlagError.UNKNOWN_FLAG) ∧
    micro_flag_parse flags [p, tok] m =
      (⟨m, [unknownLine tok], []⟩, MicroFlagError.UNKNOWN_FLAG) := by
  constructor
  · rw [scanOuter_cons, scanInner_nomatch flags tok rest s false h]
    rfl
  · rw [micro_flag_parse_eq, scanOuter_cons,
      scanInner_nomatch flags tok [] ⟨m, [], []⟩ false h]
    rfl

/-- Witness for claim C6 at the token "--bogus" against a one-flag table. -/
theorem c6_unknown_flag_witness :
    scanOuter [⟨MICRO_FLAG_BOOL, 0, some "-h", some "--help", "help"⟩] 1 ["--bogus"]
        ⟨memUndef, [], []⟩ =
      (⟨memUndef, [unknownLine "--bogus"], []⟩, MicroFlagError.UNKNOWN_FLAG) ∧
    micro_flag_parse [⟨MICRO_FLAG_BOOL, 0, some "-h", some "--help", "help"⟩]
        ["prog", "--bogus"] memUndef =
      (⟨memUndef, [unknownLine "--bogus"], []⟩, MicroFlagError.UNKNOWN_FLAG) :=
  c6_unknown_flag [⟨MICRO_FLAG_BOOL, 0, some "-h", some "--help", "help"⟩] 0 "--bogus"
    "prog" [] ⟨memUndef, [], []⟩ memUndef (by decide)

/-- Claim C7: a Char flag with a following value token fails with
CharWrongArg when the token is not exactly one byte long (memory
unchanged), and otherwise writes that character to the destination,
consumes the token and the parse succeeds. -/
theorem c7_char_flag (nm : String) (l : Option String) (d : String) (a : Nat)
    (v p : String) (m : Mem) :
    (¬ strlen v = 1 →
      (micro_flag_parse [⟨MICRO_FLAG_CHAR, a, some nm, l, d⟩] [p, nm, v] m).2 =
        MicroFlagError.CHAR_WRONG_ARG ∧
      (micro_flag_parse [⟨MICRO_FLAG_CHAR, a, some nm, l, d⟩] [p, nm, v] m).1.mem = m) ∧
    (strlen v = 1 →
      (micro_flag_parse [⟨MICRO_FLAG_CHAR, a, some nm, l, d⟩] [p, nm, v] m).2 =
        MicroFlagError.OK ∧
      (micro_flag_parse [⟨MICRO_FLAG_CHAR, a, some nm, l, d⟩] [p, nm, v] m).1.mem =
        m.write a (MicroValue.vChar v.front)) := by
  have hm : flagMatch ⟨MICRO_FLAG_CHAR, a, some nm, l, d⟩ nm = true := by
    simp [flagMatch, nameMatch]
  constructor
  · intro hl
    have hs : scanInner [⟨MICRO_FLAG_CHAR, a, some nm, l, d⟩] nm [v]
        (⟨m, [], []⟩ : ParseState) false =
        ScanStep.err ⟨m, [usageLine ⟨MICRO_FLAG_CHAR, a, some nm, l, d⟩ "<char>"],
          [⟨MICRO_FLAG_CHAR, a, some nm, l, d⟩]⟩ MicroFlagError.CHAR_WRONG_ARG := by
      simp only [scanInner, hm, if_true]
      rw [dispatchFlag_char_bad _ nm v [] _ rfl hl]
      rfl
    rw [micro_flag_parse_eq, scanOuter_cons, hs]
    exact ⟨rfl, rfl⟩
  · intro hl
    have hs : scanInner [⟨MICRO_FLAG_CHAR, a, some nm, l, d⟩] nm [v]
        (⟨m, [], []⟩ : ParseState) false =
        ScanStep.next v [] ⟨m.write a (MicroValue.vChar v.front), [],
          [⟨MICRO_FLAG_CHAR, a, some nm, l, d⟩]⟩ true := by
      simp only [scanInner, hm, if_true]
      rw [dispatchFlag_char_ok _ nm v [] _ rfl hl]
      rfl
    rw [micro_flag_parse_eq, scanOuter_cons, hs]
    exact ⟨rfl, rfl⟩

/-- Witness for claim C7: "ab" is rejected with CharWrongArg, "A" is
accepted and the character A is written. -/
theorem c7_char_flag_witness :
    (micro_flag_parse [⟨MICRO_FLAG_CHAR, 0, some "-c", none, "c"⟩] ["prog", "-c", "ab"]
        memUndef).2 = MicroFlagError.CHAR_WRONG_ARG ∧
    (micro_flag_parse [⟨MICRO_FLAG_CHAR, 0, some "-c", none, "c"⟩] ["prog", "-c", "A"]
        memUndef).2 = MicroFlagError.OK ∧
    (micro_flag_parse [⟨MICRO_FLAG_CHAR, 0, some "-c", none, "c"⟩] ["prog", "-c", "A"]
        memUndef).1.mem 0 = MicroValue.vChar (Char.ofNat 65) := by
  refine ⟨((c7_char_flag "-c" none "c" 0 "ab" "prog" memUndef).1 (by decide)).1,
    ((c7_char_flag "-c" none "c" 0 "A" "prog" memUndef).2 (by decide)).1, ?_⟩
  rw [((c7_char_flag "-c" none "c" 0 "A" "prog" memUndef).2 (by decide)).2]
  decide


/-- Claim C8: in any run of micro_flag_parse, (a) a Bool flag that was
matched (it appears in the ghost trigger list) whose destination is only
ever written by Bool matches holds true at the end, whatever the position
of its token and whether the parse later failed; and (b) the destination
cell of every flag matched by no token (more generally, any address no
matched flag writes to) retains its caller-set initial contents. -/
theorem c8_bool_and_frame (flags : List MicroFlag) (argv : List String) (m : Mem) :
    (∀ f, f ∈ (micro_flag_parse flags argv m).1.triggered →
      f.type = MICRO_FLAG_BOOL →
      (∀ g ∈ (micro_flag_parse flags argv m).1.triggered,
        g.value = f.value → g.type = MICRO_FLAG_BOOL) →
      (micro_flag_parse flags argv m).1.mem f.value = MicroValue.vBool true) ∧
    (∀ a, (∀ g ∈ (micro_flag_parse flags argv m).1.triggered, ¬ g.value = a) →
      (micro_flag_parse flags argv m).1.mem a = m a) := by
  obtain ⟨new, htrig, _, _, _, hframe, hstab⟩ :=
    scanOuter_inv flags argv.length (argv.drop 1) ⟨m, [], []⟩
  have hne : (micro_flag_parse flags argv m).1.triggered = new := htrig
  constructor
  · intro f hf hb hall
    have hs := hstab f.value (fun g hg hv => hall g (by rw [hne]; exact hg) hv)
    exact hs.2 ⟨f, by rw [← hne]; exact hf, rfl⟩
  · intro a ha
    exact hframe a (fun g hg => ha g (by rw [hne]; exact hg))

/-- Witness for claim C8: the matched Bool flag at address 0 is set true,
the unmatched flag at address 1 keeps its initial undefined contents. -/
theorem c8_bool_and_frame_witness :
    (micro_flag_parse [⟨MICRO_FLAG_BOOL, 0, some "-h", none, "h"⟩,
                       ⟨MICRO_FLAG_BOOL, 1, some "-q", none, "q"⟩]
        ["prog", "-h"] memUndef).1.mem 0 = MicroValue.vBool true ∧
    (micro_flag_parse [⟨MICRO_FLAG_BOOL, 0, some "-h", none, "h"⟩,
                       ⟨MICRO_FLAG_BOOL, 1, some "-q", none, "q"⟩]
        ["prog", "-h"] memUndef).1.mem 1 = MicroValue.undef := by
  have h := c8_bool_and_frame [⟨MICRO_FLAG_BOOL, 0, some "-h", none, "h"⟩,
    ⟨MICRO_FLAG_BOOL, 1, some "-q", none, "q"⟩] ["prog", "-h"] memUndef
  constructor
  · exact h.1 ⟨MICRO_FLAG_BOOL, 0, some "-h", none, "h"⟩ (by decide) rfl (by decide)
  · exact h.2 1 (by decide)

/-- For a kind inside the enum, the placeholder table lookup of the code
agrees with the specification-side placeholder function. -/
lemma helpBlock_eq_specBlock (f : MicroFlag) (h : f.type < 5) :
    helpBlock f = specBlock f := by
  have h5 : f.type = 0 ∨ f.type = 1 ∨ f.type = 2 ∨ f.type = 3 ∨ f.type = 4 := by omega
  rcases h5 with ht | ht | ht | ht | ht <;>
    cases hsn : f.short_name <;> cases hln : f.long_name <;>
      simp [helpBlock, specBlock, kindPlaceholder, micro_flag_type_str, List.getD, ht, hsn, hln]

/-- The help loop renders, in table order, exactly the specification-side
blocks. -/
lemma helpBlocks_spec (fs : List MicroFlag) (h : ∀ f ∈ fs, f.type < 5) :
    helpBlocks fs = (fs.map specBlock).flatten := by
  induction fs with
  | nil => rfl
  | cons f fs ih =>
    show helpBlock f ++ helpBlocks fs = _
    rw [helpBlock_eq_specBlock f (h f (List.mem_cons_self f fs)),
      ih (fun g hg => h g (List.mem_cons_of_mem f hg)), List.map_cons, List.flatten_cons]

/-- The help loop emits exactly two lines per declared flag. -/
lemma helpBlocks_length (fs : List MicroFlag) : (helpBlocks fs).length = 2 * fs.length := by
  induction fs with
  | nil => rfl
  | cons f fs ih =>
    show (helpBlock f ++ helpBlocks fs).length = _
    rw [List.length_append, ih]
    simp [helpBlock]
    omega

/-- Claim C9: for a table whose kinds lie inside the enum, the help output
is exactly the program-name line, the description line, a blank line, the
Options header, then one two-line block per flag in table order, with the
comma exactly when both names are present and the placeholder determined
by the kind; in particular it has exactly 4 + 2 N lines for N flags. -/
theorem c9_help_layout (prog descr : String) (flags : List MicroFlag)
    (h : ∀ f ∈ flags, f.type < 5) :
    (micro_flag_print_help prog descr flags).1 = specHelp prog descr flags ∧
    (micro_flag_print_help prog descr flags).1.length = 4 + 2 * flags.length := by
  constructor
  · show [prog, descr, "", "Options:"] ++ helpBlocks flags = specHelp prog descr flags
    rw [helpBlocks_spec flags h]
    rfl
  · show ([prog, descr, "", "Options:"] ++ helpBlocks flags).length = 4 + 2 * flags.length
    rw [List.length_append, helpBlocks_length]
    rfl

/-- Witness for claim C9 on a two-flag table. -/
theorem c9_help_layout_witness :
    (micro_flag_print_help "example" "demo" [⟨MICRO_FLAG_BOOL, 0, some "-h", some "--help", "show help"⟩,
        ⟨MICRO_FLAG_INT, 1, some "-n", none, "number"⟩]).1 =
      specHelp "example" "demo" [⟨MICRO_FLAG_BOOL, 0, some "-h", some "--help", "show help"⟩,
        ⟨MICRO_FLAG_INT, 1, some "-n", none, "number"⟩] ∧
    (micro_flag_print_help "example" "demo" [⟨MICRO_FLAG_BOOL, 0, some "-h", some "--help", "show help"⟩,
        ⟨MICRO_FLAG_INT, 1, some "-n", none, "number"⟩]).1.length =
      4 + 2 * ([⟨MICRO_FLAG_BOOL, 0, some "-h", some "--help", "show help"⟩,
        ⟨MICRO_FLAG_INT, 1, some "-n", none, "number"⟩] : List MicroFlag).length :=
  c9_help_layout "example" "demo" [⟨MICRO_FLAG_BOOL, 0, some "-h", some "--help", "show help"⟩,
    ⟨MICRO_FLAG_INT, 1, some "-n", none, "number"⟩] (by decide)

/-- Claim C10: micro_flag_print_help returns MICRO_FLAG_OK on every input;
the error side of its result type is never produced. -/
theorem c10_help_ok (prog descr : String) (flags : List MicroFlag) :
    (micro_flag_print_help prog descr flags).2 = MicroFlagError.OK := rfl

end MicroFlagLib
